import Mathlib

/-!
Verification of the grok2api streaming-translation core against its
natural-language specification.

The development shallowly embeds the TypeScript sources:
* the gRPC-Web codec (`encodeGrpcWebFrame` / `parseGrpcWebResponse`),
* the conversation store (`upsertConversation`, `cleanupExpiredConversations`,
  `trimConversationsForToken`) over a list model of the SQLite table,
* the history hasher (`computeHistoryHash`, with SHA-256 abstracted as a
  function parameter, as the spec treats it as a collaborator),
* the tool-usage-card stream parser (`ToolUsageCardStreamParser`),
* the NDJSON → SSE stream transformer (`createOpenAiStreamFromGrokNdjson`)
  as a state machine over parsed-line events, and its timeout arithmetic.

Modelling conventions: JS strings are `List Char`; byte arrays are `List Nat`
(values < 256); JS numbers that the code treats integrally are `Int`/`Nat`
with explicit wrap-around (`% 2 ^ 32`, signed reinterpretation) where the
code performs 32-bit bitwise arithmetic.  JSON values are an inductive type
with integer numerals.  Fallible operations return `Option`/`Except`.
-/

namespace G2A

/-! ### JS string primitives over `List Char` -/

/-- Whitespace class used by JS `trim` / `\s` (ASCII part). -/
def jsWhitespace (c : Char) : Bool :=
  c = ' ' || c = '\t' || c = '\n' || c = '\r' || c = '\x0b' || c = '\x0c'

def trimStartL (l : List Char) : List Char := l.dropWhile jsWhitespace

def trimEndL (l : List Char) : List Char := (l.reverse.dropWhile jsWhitespace).reverse

/-- JS `String.prototype.trim`. -/
def trimL (l : List Char) : List Char := trimEndL (trimStartL l)

/-- JS `String.prototype.toLowerCase` (ASCII-faithful). -/
def toLowerL (l : List Char) : List Char := l.map Char.toLower

/-- JS `indexOf(pat)` starting at index `i` (helper). -/
def firstIdxOfAux (pat : List Char) : List Char → Nat → Option Nat
  | l, i =>
    if pat.isPrefixOf l then some i
    else
      match l with
      | [] => none
      | _ :: rest => firstIdxOfAux pat rest (i + 1)

/-- JS `String.prototype.indexOf`: index of the first occurrence, if any. -/
def firstIdxOf (pat l : List Char) : Option Nat := firstIdxOfAux pat l 0

/-- JS `indexOf(pat, from)`. -/
def firstIdxOfFrom (pat l : List Char) (start : Nat) : Option Nat :=
  (firstIdxOf pat (l.drop start)).map (· + start)

def lastIdxOfAux (pat : List Char) : List Char → Nat → Option Nat → Option Nat
  | l, i, best =>
    let best' := if pat.isPrefixOf l then some i else best
    match l with
    | [] => best'
    | _ :: rest => lastIdxOfAux pat rest (i + 1) best'

/-- JS `String.prototype.lastIndexOf`: index of the last occurrence, if any. -/
def lastIdxOf (pat l : List Char) : Option Nat := lastIdxOfAux pat l 0 none

/-- JS `String.prototype.includes`. -/
def includesL (l pat : List Char) : Bool := (firstIdxOf pat l).isSome

/-- JS `String.prototype.startsWith`. -/
def startsWithL (l pat : List Char) : Bool := pat.isPrefixOf l

/-- `slice(a, b)` (with `a ≤ b` usage only in the sources we embed). -/
def sliceL (l : List Char) (a b : Nat) : List Char := (l.take b).drop a

/-- `slice(a)`. -/
def sliceFromL (l : List Char) (a : Nat) : List Char := l.drop a

/-! ### gRPC-Web codec (src/unnamed/part_000, lines 642–806)

Bytes are `List Nat` (each value < 256, as produced by `Uint8Array`). -/

/-- Character class of the regex `^[A-Za-z0-9+/=\r\n]+$` (`BASE64_BODY_RE`),
applied to `String.fromCharCode(byte)`. -/
def base64BodyByteOk (b : Nat) : Bool :=
  (65 ≤ b && b ≤ 90) || (97 ≤ b && b ≤ 122) || (48 ≤ b && b ≤ 57) ||
    b = 43 || b = 47 || b = 61 || b = 13 || b = 10

/-- `isProbablyBase64Body`: non-empty and the first ≤ 1024 bytes all match
`BASE64_BODY_RE`. -/
def isProbablyBase64Body (body : List Nat) : Bool :=
  if body.length = 0 then false
  else (body.take (min body.length 1024)).all base64BodyByteOk

/-- Value of a base64 alphabet character, if it is one. -/
def base64CharVal (c : Char) : Option Nat :=
  if 'A' ≤ c && c ≤ 'Z' then some (c.toNat - 65)
  else if 'a' ≤ c && c ≤ 'z' then some (c.toNat - 97 + 26)
  else if '0' ≤ c && c ≤ '9' then some (c.toNat - 48 + 52)
  else if c = '+' then some 62
  else if c = '/' then some 63
  else none

/-- Decode a list of base64 digit values (groups of 4 → 3 bytes; a final
group of 2 or 3 digits yields 1 or 2 bytes). -/
def base64Groups : List Nat → Option (List Nat)
  | [] => some []
  | [_] => none
  | [a, b] => some [(a * 4 + b / 16) % 256]
  | [a, b, c] => some [(a * 4 + b / 16) % 256, (b % 16 * 16 + c / 4) % 256]
  | a :: b :: c :: d :: rest => do
      let tail ← base64Groups rest
      pure ([(a * 4 + b / 16) % 256, (b % 16 * 16 + c / 4) % 256,
             (c % 4 * 64 + d) % 256] ++ tail)

/-- `atob`: base64-decode a string into bytes; `none` models the thrown
`InvalidCharacterError`.  Trailing `=` padding is stripped first. -/
def atob (text : List Char) : Option (List Nat) := do
  let core := (text.reverse.dropWhile (· = '=')).reverse
  if text.length % 4 ≠ 0 then none
  else if text.length - core.length > 2 then none
  else
    let vals ← core.mapM base64CharVal
    base64Groups vals

/-- `decodeBase64Body`: `atob` with the failure branch returning `null`. -/
def decodeBase64Body (text : List Char) : Option (List Nat) := atob text

/-- Bytes rendered to a JS string one char per byte.  (Models
`String.fromCharCode` loops; also stands in for `TextDecoder` on the ASCII
inputs the embedded theorems touch.) -/
def bytesToChars (body : List Nat) : List Char :=
  body.map (fun b => Char.ofNat b)

def charsToBytes (l : List Char) : List Nat := l.map Char.toNat

/-- `maybeDecodeGrpcWebText`: decode base64-text bodies; on the heuristic or
content-type path, strip whitespace (`replace(/\s+/g, "")`), base64-decode,
and keep the raw body on failure. -/
def maybeDecodeGrpcWebText (body : List Nat) (contentType : List Char) : List Nat :=
  let shouldDecodeText := includesL (toLowerL contentType) "grpc-web-text".toList
  let shouldTryHeuristic := !shouldDecodeText && isProbablyBase64Body body
  if !shouldDecodeText && !shouldTryHeuristic then body
  else
    let compact := (bytesToChars body).filter (fun c => !jsWhitespace c)
    if compact = [] then body
    else match decodeBase64Body compact with
      | some decoded => decoded
      | none => body

/-- `decodeURIComponent` on `%XX` escapes (ASCII fragment); `none` models a
thrown `URIError`. -/
def percentDecode : List Char → Option (List Char)
  | [] => some []
  | '%' :: h :: l :: rest => do
      let hv ← if h.isDigit then some (h.toNat - 48)
               else if 'a' ≤ h && h ≤ 'f' then some (h.toNat - 87)
               else if 'A' ≤ h && h ≤ 'F' then some (h.toNat - 55)
               else none
      let lv ← if l.isDigit then some (l.toNat - 48)
               else if 'a' ≤ l && l ≤ 'f' then some (l.toNat - 87)
               else if 'A' ≤ l && l ≤ 'F' then some (l.toNat - 55)
               else none
      let tail ← percentDecode rest
      pure (Char.ofNat (hv * 16 + lv) :: tail)
  | '%' :: _ => none
  | c :: rest => do pure (c :: (← percentDecode rest))

/-- `decodeGrpcMessage`: trim, URI-decode, fall back to the trimmed raw value. -/
def decodeGrpcMessage (value : List Char) : List Char :=
  let raw := trimL value
  if raw = [] then []
  else match percentDecode raw with
    | some s => s
    | none => raw

/-- Split on `/\r?\n/`. -/
def splitCRLF (l : List Char) : List (List Char) :=
  (l.splitOn '\n').map (fun line => line.reverse.dropWhile (· = '\r') |>.reverse)

/-- Association-list update with JS object-assignment semantics: overwrite an
existing key, else append. -/
def assocSet (m : List (List Char × List Char)) (k v : List Char) :
    List (List Char × List Char) :=
  if m.any (fun p => p.1 = k) then m.map (fun p => if p.1 = k then (k, v) else p)
  else m ++ [(k, v)]

def assocGet (m : List (List Char × List Char)) (k : List Char) : Option (List Char) :=
  (m.find? (fun p => p.1 = k)).map (·.2)

/-- `parseTrailerBlock`: CRLF/LF-split `key: value` lines, lowercase keys,
URI-decode `grpc-message`; later lines overwrite earlier ones. -/
def parseTrailerBlock (payload : List Nat) : List (List Char × List Char) :=
  (splitCRLF (bytesToChars payload)).foldl
    (fun trailers line =>
      if line = [] || !includesL line [':'] then trailers
      else match firstIdxOf [':'] line with
        | none => trailers
        | some index =>
            let key := toLowerL (trimL (line.take index))
            let value := trimL (line.drop (index + 1))
            if key = [] then trailers
            else assocSet trailers key
                   (if key = "grpc-message".toList then decodeGrpcMessage value else value))
    []

/-- JS `Number(string)` followed by `Number.isInteger`: `parseGrpcStatus`. -/
def parseGrpcStatus (value : List Char) : Option Int :=
  let raw := trimL value
  if raw = [] then none
  else
    let (sign, digits) :=
      match raw with
      | '-' :: rest => ((-1 : Int), rest)
      | '+' :: rest => ((1 : Int), rest)
      | _ => ((1 : Int), raw)
    if digits ≠ [] && digits.all Char.isDigit then
      some (sign * (digits.foldl (fun n c => n * 10 + (c.toNat - 48)) 0 : Nat))
    else none

/-- `encodeGrpcWebFrame`: `0x00 || uint32be(len(P)) || P`.  JS `>>>` converts
the length to uint32 first, hence the digits of `len mod 2^32`. -/
def encodeGrpcWebFrame (payload : List Nat) : List Nat :=
  let length := payload.length
  0 :: [length / 2 ^ 24 % 256, length / 2 ^ 16 % 256, length / 2 ^ 8 % 256, length % 256]
    ++ payload

/-- The frame length read by `parseGrpcWebResponse`:
`(b1 << 24) | (b2 << 16) | (b3 << 8) | b4` with JS *signed* 32-bit bitwise
operators, so values ≥ 2^31 come out negative. -/
def sint32OfBytes (b1 b2 b3 b4 : Nat) : Int :=
  let u : Nat := b1 % 256 * 2 ^ 24 + b2 % 256 * 2 ^ 16 + b3 % 256 * 2 ^ 8 + b4 % 256
  if u < 2 ^ 31 then (u : Int) else (u : Int) - 2 ^ 32

/-- The frame-walking loop of `parseGrpcWebResponse` (lines 760–782),
recursing on the unread suffix of the body.  Returns the collected messages
and trailers, or the `"grpc-web compressed frame is not supported"` error. -/
def parseFrames : List Nat → List (List Nat) → List (List Char × List Char) →
    Except (List Char) (List (List Nat) × List (List Char × List Char))
  | rest, msgs, trailers =>
    if h : rest.length < 5 then .ok (msgs.reverse, trailers)
    else
      let flag := rest.headD 0
      let length := sint32OfBytes (rest.getD 1 0) (rest.getD 2 0) (rest.getD 3 0) (rest.getD 4 0)
      if length < 0 || (5 : Int) + length > rest.length then .ok (msgs.reverse, trailers)
      else
        let payload := (rest.drop 5).take length.toNat
        if flag % 256 / 128 % 2 = 1 then
          parseFrames (rest.drop (5 + length.toNat)) msgs
            ((parseTrailerBlock payload).foldl (fun m p => assocSet m p.1 p.2) trailers)
        else if flag % 2 = 1 then
          .error "grpc-web compressed frame is not supported".toList
        else
          parseFrames (rest.drop (5 + length.toNat)) (payload :: msgs) trailers
  termination_by rest _ _ => rest.length
  decreasing_by all_goals (simp only [List.length_drop]; omega)

structure GrpcWebParseResult where
  messages : List (List Nat)
  trailers : List (List Char × List Char)
  grpc_status : Option Int
  grpc_message : List Char
  deriving Repr, DecidableEq

/-- `readHeader` over an optional header map (case-insensitive key lookup,
trimmed value; absent headers give `""`). -/
def readHeader (headers : Option (List (List Char × List Char))) (name : List Char) :
    Option (List Char) :=
  match headers with
  | none => none
  | some hs =>
      (hs.find? (fun p => toLowerL p.1 = toLowerL name)).map (fun p => trimL p.2)

/-- `parseGrpcWebResponse` (body, optional headers, optional content type). -/
def parseGrpcWebResponse (body : List Nat) (headers : Option (List (List Char × List Char)))
    (contentType : Option (List Char)) : Except (List Char) GrpcWebParseResult :=
  let ct := contentType.getD ((readHeader headers "content-type".toList).getD [])
  let decodedBody := maybeDecodeGrpcWebText body ct
  match parseFrames decodedBody [] [] with
  | .error e => .error e
  | .ok (messages, trailers0) =>
      let trailers1 :=
        if (assocGet trailers0 "grpc-status".toList).getD [] = [] then
          match readHeader headers "grpc-status".toList with
          | some hv => if hv ≠ [] then assocSet trailers0 "grpc-status".toList hv else trailers0
          | none => trailers0
        else trailers0
      let trailers2 :=
        if (assocGet trailers1 "grpc-message".toList).getD [] = [] then
          match readHeader headers "grpc-message".toList with
          | some hv =>
              if hv ≠ [] then assocSet trailers1 "grpc-message".toList (decodeGrpcMessage hv)
              else trailers1
          | none => trailers1
        else trailers1
      .ok { messages := messages
            trailers := trailers2
            grpc_status := parseGrpcStatus ((assocGet trailers2 "grpc-status".toList).getD [])
            grpc_message := (assocGet trailers2 "grpc-message".toList).getD [] }

/-! ### Conversation store (src/src/repo/conversations.ts)

The SQLite table is modelled as a `List ConversationRow`; SQL `ORDER BY` is
`List.mergeSort` (stable, matching a deterministic query plan), `DELETE` is
`List.filter`, and `INSERT … ON CONFLICT` is an in-place update or append. -/

structure ConversationRow where
  scope : String
  openai_conversation_id : String
  grok_conversation_id : String
  last_response_id : String
  share_link_id : String
  token : String
  history_hash : String
  created_at : Int
  updated_at : Int
  expires_at : Int
  deriving Repr, DecidableEq

structure UpsertConversationInput where
  scope : String
  openai_conversation_id : String
  grok_conversation_id : String
  last_response_id : String
  share_link_id : Option String
  token : String
  history_hash : Option String
  created_at : Option Int
  updated_at : Option Int
  expires_at : Int
  deriving Repr, DecidableEq

/-- JS `String.prototype.trim` on `String`. -/
def trimS (s : String) : String := ⟨trimL s.toList⟩

/-- `a || b` for the integral JS numbers the store receives (`0` is falsy;
`NaN`/`undefined` are outside the `Int` model). -/
def jsOrInt (a b : Int) : Int := if a = 0 then b else a

/-- Rows matched by the table's primary key `(scope, openai_conversation_id)`. -/
def matchesPK (scope id : String) (r : ConversationRow) : Bool :=
  r.scope = scope && r.openai_conversation_id = id

/-- `upsertConversation`: `INSERT … ON CONFLICT(scope, openai_conversation_id)
DO UPDATE SET` every mutable column except `created_at`. -/
def upsertConversation (nowMs : Int) (table : List ConversationRow)
    (row : UpsertConversationInput) : List ConversationRow :=
  let createdAt := row.created_at.getD nowMs
  let updatedAt := row.updated_at.getD nowMs
  let historyHash := trimS (row.history_hash.getD "")
  let shareLink := trimS (row.share_link_id.getD "")
  if table.any (matchesPK row.scope row.openai_conversation_id) then
    table.map (fun r =>
      if matchesPK row.scope row.openai_conversation_id r then
        { r with
          grok_conversation_id := row.grok_conversation_id
          last_response_id := row.last_response_id
          share_link_id := shareLink
          token := row.token
          history_hash := historyHash
          updated_at := updatedAt
          expires_at := row.expires_at }
      else r)
  else
    table ++ [{ scope := row.scope
                openai_conversation_id := row.openai_conversation_id
                grok_conversation_id := row.grok_conversation_id
                last_response_id := row.last_response_id
                share_link_id := shareLink
                token := row.token
                history_hash := historyHash
                created_at := createdAt
                updated_at := updatedAt
                expires_at := row.expires_at }]

/-- `cleanupExpiredConversations`: select up to
`Math.max(1, Math.min(500, Math.floor(limit || 100)))` expired rows ordered by
`expires_at ASC`, delete them by primary key, return the selected count.
Result: the table after deletion, paired with the return value. -/
def cleanupExpiredConversations (table : List ConversationRow) (limit : Int)
    (atMs : Int) : List ConversationRow × Nat :=
  let batch : Int := max 1 (min 500 (jsOrInt limit 100))
  let rows :=
    ((table.filter (fun r => r.expires_at ≤ atMs)).mergeSort
        (fun a b => a.expires_at ≤ b.expires_at)).take batch.toNat
  if rows.length = 0 then (table, 0)
  else
    (table.filter (fun r =>
        !(rows.any (fun s => matchesPK s.scope s.openai_conversation_id r))),
      rows.length)

/-- `trimConversationsForToken`: keep the `Math.max(1, Math.floor(keep || 1))`
most recent (`updated_at DESC`) rows for `(scope, token)`, delete the rest by
primary key, return the deletion count. -/
def trimConversationsForToken (table : List ConversationRow) (scope token : String)
    (keep : Int) : List ConversationRow × Nat :=
  let keepCount : Int := max 1 (jsOrInt keep 1)
  let rows :=
    (table.filter (fun r => r.scope = scope && r.token = token)).mergeSort
      (fun a b => b.updated_at ≤ a.updated_at)
  if (rows.length : Int) ≤ keepCount then (table, 0)
  else
    let stale := rows.drop keepCount.toNat
    (table.filter (fun r =>
        !(stale.any (fun s => matchesPK scope s.openai_conversation_id r))),
      stale.length)

/-! ### History hasher (src/src/repo/conversations.ts, part 2)

`sha256Hex` is a collaborator (spec §1) and is taken as a function
parameter. -/

structure ContentItem where
  type : Option String
  text : Option String
  deriving Repr, DecidableEq

/-- `MessageContent`: a string, an array of (possibly null) items, or
null/undefined. -/
inductive MsgContent
  | str (s : String)
  | arr (items : List (Option ContentItem))
  | nil
  deriving Repr, DecidableEq

structure GenericMessage where
  role : Option String
  content : MsgContent
  deriving Repr, DecidableEq

/-- `extractText`: strings pass through; arrays concatenate the `text` of
`type === "text"` items whose text is non-blank; anything else gives `""`. -/
def extractText : MsgContent → String
  | .str s => s
  | .nil => ""
  | .arr items =>
      String.join (items.filterMap (fun item =>
        match item with
        | none => none
        | some it =>
            if it.type = some "text" then
              let text := it.text.getD ""
              if trimS text ≠ "" then some text else none
            else none))

/-- One pass of `computeHistoryHash`'s message loop: collect
`(systemParts, userParts, hasAssistant)`. -/
def collectParts (messages : List GenericMessage) : List String × List String × Bool :=
  messages.foldl
    (fun acc msg =>
      let (sys, usr, hasAssistant) := acc
      let role := msg.role.getD ""
      if role = "assistant" then (sys, usr, true)
      else
        let text := trimS (extractText msg.content)
        if text = "" then acc
        else if role = "system" then (sys ++ ["system:" ++ text], usr, hasAssistant)
        else if role = "user" then (sys, usr ++ ["user:" ++ text], hasAssistant)
        else acc)
    ([], [], false)

/-- `computeHistoryHash`. -/
def computeHistoryHash (sha256Hex : String → String) (messages : List GenericMessage)
    (excludeLastUser : Bool) : String :=
  if messages.length = 0 then ""
  else
    let (systemParts, userParts, hasAssistant) := collectParts messages
    let usedUsers :=
      if excludeLastUser && hasAssistant && userParts.length > 0 then
        userParts.take (userParts.length - 1)
      else userParts
    let parts := systemParts ++ usedUsers
    if parts.length = 0 then ""
    else sha256Hex (String.intercalate "\n" parts)

/-! ### Stream timeout machine (src/unnamed/part_000, lines 46–59, 183–185,
283–328) -/

/-- The three timeout bounds in milliseconds, after
`Math.max(0, (settings.x ?? default) * 1000)`. -/
structure StreamTimeouts where
  firstTimeoutMs : Int
  chunkTimeoutMs : Int
  totalTimeoutMs : Int
  deriving Repr, DecidableEq

/-- Derivation of the bounds from the settings (seconds, optional). -/
def streamTimeoutsOfSettings (first chunk total : Option Int) : StreamTimeouts :=
  { firstTimeoutMs := max 0 ((first.getD 30) * 1000)
    chunkTimeoutMs := max 0 ((chunk.getD 120) * 1000)
    totalTimeoutMs := max 0 ((total.getD 600) * 1000) }

/-- The per-read timeout computed before each `readWithTimeout` call:
`Math.min(firstReceived ? chunkTimeoutMs : firstTimeoutMs,
totalTimeoutMs > 0 ? Math.max(0, totalTimeoutMs - elapsed) : +∞)`. -/
def perReadTimeout (t : StreamTimeouts) (firstReceived : Bool) (elapsed : Int) : Int :=
  let base := if firstReceived then t.chunkTimeoutMs else t.firstTimeoutMs
  if t.totalTimeoutMs > 0 then min base (max 0 (t.totalTimeoutMs - elapsed)) else base

inductive LoopGate
  | terminate
  | read (effTimeoutMs : Int)
  deriving Repr, DecidableEq

/-- The three bound checks at the head of the stream loop, in source order:
first-frame bound (no zero guard), total bound (guarded by
`totalTimeoutMs > 0`), inter-chunk bound (no zero guard).  When none trips,
the loop proceeds to read with the effective per-read timeout. -/
def loopGate (t : StreamTimeouts) (firstReceived : Bool) (elapsed idle : Int) : LoopGate :=
  if !firstReceived && elapsed > t.firstTimeoutMs then .terminate
  else if t.totalTimeoutMs > 0 && elapsed > t.totalTimeoutMs then .terminate
  else if firstReceived && idle > t.chunkTimeoutMs then .terminate
  else .read (perReadTimeout t firstReceived elapsed)

inductive ReadOutcome
  | timeout
  | value (bytes : List Nat)
  | done
  deriving Repr, DecidableEq

/-- `readWithTimeout`: with `ms ≤ 0` it resolves to `{timeout: true}` without
reading; otherwise it races the reader against a timer, whose outcome
(`raceResult`) is environment-determined. -/
def readWithTimeout (ms : Int) (raceResult : ReadOutcome) : ReadOutcome :=
  if ms ≤ 0 then .timeout else raceResult

/-! ### JSON values (model of `JSON.parse` results)

Numbers are modelled as integers: the embedded code only ever stringifies or
compares them, and no theorem below depends on fractional numerals (inputs
with fractions/exponents make the model parser fail, i.e. behave like a
non-JSON string). -/

inductive JsonVal
  | null
  | bool (b : Bool)
  | num (n : Int)
  | str (s : List Char)
  | arr (items : List JsonVal)
  | obj (fields : List (List Char × JsonVal))
  deriving Repr

def skipJsonWs (l : List Char) : List Char :=
  l.dropWhile (fun c => c = ' ' || c = '\t' || c = '\n' || c = '\r')

/-- JSON string body after the opening quote: content and the rest after the
closing quote (basic escapes; `\uXXXX` is outside the model). -/
def parseJsonStringAux : List Char → Option (List Char × List Char)
  | [] => none
  | '"' :: rest => some ([], rest)
  | '\\' :: e :: rest => do
      let c ← match e with
        | '"' => some '"'
        | '\\' => some '\\'
        | '/' => some '/'
        | 'n' => some '\n'
        | 't' => some '\t'
        | 'r' => some '\r'
        | 'b' => some (Char.ofNat 8)
        | 'f' => some (Char.ofNat 12)
        | _ => none
      let (s, r) ← parseJsonStringAux rest
      pure (c :: s, r)
  | ['\\'] => none
  | c :: rest => do
      let (s, r) ← parseJsonStringAux rest
      pure (c :: s, r)

def parseJsonNumber (l : List Char) : Option (JsonVal × List Char) :=
  let (neg, l₁) := match l with | '-' :: r => (true, r) | _ => (false, l)
  let digits := l₁.takeWhile Char.isDigit
  let rest := l₁.drop digits.length
  if digits = [] then none
  else match rest with
    | '.' :: _ => none
    | 'e' :: _ => none
    | 'E' :: _ => none
    | _ =>
        let n : Nat := digits.foldl (fun a c => a * 10 + (c.toNat - 48)) 0
        some (.num (if neg then -(n : Int) else (n : Int)), rest)

mutual

def parseJsonValue : Nat → List Char → Option (JsonVal × List Char)
  | 0, _ => none
  | fuel + 1, input =>
    let l := skipJsonWs input
    if "null".toList.isPrefixOf l then some (.null, l.drop 4)
    else if "true".toList.isPrefixOf l then some (.bool true, l.drop 4)
    else if "false".toList.isPrefixOf l then some (.bool false, l.drop 5)
    else match l with
      | '"' :: rest => (parseJsonStringAux rest).map (fun p => (.str p.1, p.2))
      | '[' :: rest =>
          (match skipJsonWs rest with
           | ']' :: r => some (.arr [], r)
           | rest' => (parseJsonItems fuel rest').map (fun p => (.arr p.1, p.2)))
      | '{' :: rest =>
          (match skipJsonWs rest with
           | '}' :: r => some (.obj [], r)
           | rest' => (parseJsonFields fuel rest').map (fun p => (.obj p.1, p.2)))
      | _ => parseJsonNumber l

def parseJsonItems : Nat → List Char → Option (List JsonVal × List Char)
  | 0, _ => none
  | fuel + 1, input => do
      let (v, rest) ← parseJsonValue fuel input
      match skipJsonWs rest with
      | ',' :: r => do
          let (vs, r') ← parseJsonItems fuel r
          pure (v :: vs, r')
      | ']' :: r => pure ([v], r)
      | _ => none

def parseJsonFields : Nat → List Char → Option (List (List Char × JsonVal) × List Char)
  | 0, _ => none
  | fuel + 1, input => do
      match skipJsonWs input with
      | '"' :: rest => do
          let (key, r1) ← parseJsonStringAux rest
          match skipJsonWs r1 with
          | ':' :: r2 => do
              let (v, r3) ← parseJsonValue fuel r2
              match skipJsonWs r3 with
              | ',' :: r4 => do
                  let (fs, r5) ← parseJsonFields fuel r4
                  pure ((key, v) :: fs, r5)
              | '}' :: r4 => pure ([(key, v)], r4)
              | _ => none
          | _ => none
      | _ => none

end

/-- `JSON.parse` (model): parse one value, require only whitespace after it.
The fuel `l.length + 1` exceeds the nesting depth of any parseable input. -/
def jsonParse (l : List Char) : Option JsonVal :=
  match parseJsonValue (l.length + 1) l with
  | some (v, rest) => if skipJsonWs rest = [] then some v else none
  | none => none

/-! ### Tool-usage-card parser (src/src/grok/rateLimits.ts, second module) -/

def TOOL_USAGE_OPEN : List Char := "<xai:tool_usage_card".toList
def TOOL_USAGE_CLOSE : List Char := "</xai:tool_usage_card>".toList
def TOOL_NAME_OPEN : List Char := "<xai:tool_name>".toList
def TOOL_NAME_CLOSE : List Char := "</xai:tool_name>".toList
def TOOL_ARGS_OPEN : List Char := "<xai:tool_args>".toList
def TOOL_ARGS_CLOSE : List Char := "</xai:tool_args>".toList
def PARTIAL_MARKER : List Char := "<xai:".toList
def CDATA_OPEN : List Char := "<![CDATA[".toList
def CDATA_CLOSE : List Char := "]]>".toList

def ROLLOUT_KEYS : List (List Char) :=
  ["rollout_id".toList, "rolloutid".toList, "rollout-id".toList, "rollout".toList]

def METADATA_KEYS : List (List Char) :=
  ["id".toList, "tool".toList, "tool_name".toList, "name".toList, "type".toList] ++ ROLLOUT_KEYS

structure ToolUsageCard where
  rolloutId : List Char
  type : List Char
  content : List Char
  deriving Repr, DecidableEq

/-- `asScalarText`: trimmed strings, stringified numbers/booleans, else `""`. -/
def asScalarText : JsonVal → List Char
  | .str s => trimL s
  | .num n => (toString n).toList
  | .bool b => (if b then "true" else "false").toList
  | _ => []

def replaceCRLF : List Char → List Char
  | [] => []
  | '\r' :: '\n' :: rest => '\n' :: replaceCRLF rest
  | c :: rest => c :: replaceCRLF rest

/-- `normalizeText`: CRLF→LF then trim. -/
def normalizeText (value : List Char) : List Char := trimL (replaceCRLF value)

/-- `normalizeToolType`. -/
def normalizeToolType (toolName : List Char) : List Char :=
  let raw := trimL toolName
  let normalized := toLowerL raw
  if normalized = "web_search".toList || normalized = "web-search".toList ||
      normalized = "websearch".toList then "WebSearch".toList
  else if normalized = "search_image".toList || normalized = "search_images".toList ||
      normalized = "search-image".toList || normalized = "searchimage".toList ||
      normalized = "image_search".toList then "SearchImage".toList
  else if normalized = "agent_think".toList || normalized = "agent-think".toList ||
      normalized = "agentthink".toList || normalized = "chatroom_send".toList ||
      normalized = "chatroom-send".toList then "AgentThink".toList
  else if raw = [] then "Unknown".toList
  else raw

/-- `parseToolArgs`: trim; empty → `""`; JSON-parse if possible, else the
trimmed raw text. -/
def parseToolArgs (raw : List Char) : JsonVal :=
  let text := trimL raw
  if text = [] then .str []
  else match jsonParse text with
    | some v => v
    | none => .str text

def firstNonEmptyL : List (List Char) → List Char
  | [] => []
  | x :: rest => if x ≠ [] then x else firstNonEmptyL rest

/-- `findByPreferredKeys` (depth-bounded DFS; preferred keys first, matched
case-insensitively, then recursion into all values). -/
def findByPreferredKeys (keys : List (List Char)) (value : JsonVal) (depth : Nat) :
    List Char :=
  if _h : depth > 6 then []
  else
    let scalar := asScalarText value
    if scalar ≠ [] && depth > 0 then []
    else match value with
      | .arr items =>
          firstNonEmptyL (items.map (fun item => findByPreferredKeys keys item (depth + 1)))
      | .obj fields =>
          let direct := firstNonEmptyL (keys.map (fun key =>
            firstNonEmptyL (fields.map (fun entry =>
              if toLowerL entry.1 = toLowerL key then
                let d := asScalarText entry.2
                if d ≠ [] then d
                else match entry.2 with
                  | .arr xs =>
                      trimL (List.intercalate ", ".toList
                        ((xs.map asScalarText).filter (· ≠ [])))
                  | _ => []
              else []))))
          if direct ≠ [] then direct
          else
            firstNonEmptyL (fields.map (fun entry =>
              findByPreferredKeys keys entry.2 (depth + 1)))
      | _ => []
  termination_by 7 - depth
  decreasing_by all_goals omega

/-- `findFirstScalar`: first scalar in DFS order, skipping metadata keys. -/
def findFirstScalar (value : JsonVal) (depth : Nat) : List Char :=
  if _h : depth > 6 then []
  else
    let direct := asScalarText value
    if direct ≠ [] then direct
    else match value with
      | .arr items => firstNonEmptyL (items.map (fun item => findFirstScalar item (depth + 1)))
      | .obj fields =>
          firstNonEmptyL (fields.map (fun entry =>
            if METADATA_KEYS.contains (toLowerL entry.1) then []
            else findFirstScalar entry.2 (depth + 1)))
      | _ => []
  termination_by 7 - depth
  decreasing_by all_goals omega

/-- `resolveRolloutId`. -/
def resolveRolloutId (parsedArgs : JsonVal) (fallbackRolloutId : List Char) : List Char :=
  let fromArgs := findByPreferredKeys ROLLOUT_KEYS parsedArgs 0
  if fromArgs ≠ [] then fromArgs
  else
    let fallback := trimL fallbackRolloutId
    if fallback ≠ [] then fallback else "-".toList

/-- `resolveContent`. -/
def resolveContent (type : List Char) (parsedArgs : JsonVal) (rawArgs : List Char) :
    List Char :=
  let preferredKeys :=
    if type = "WebSearch".toList then
      ["query".toList, "queries".toList, "keyword".toList, "keywords".toList,
       "prompt".toList, "text".toList]
    else if type = "SearchImage".toList then
      ["query".toList, "prompt".toList, "description".toList, "keyword".toList,
       "keywords".toList, "text".toList]
    else if type = "AgentThink".toList then
      ["thought".toList, "reason".toList, "reasoning".toList, "content".toList,
       "text".toList, "summary".toList, "plan".toList]
    else
      ["content".toList, "text".toList, "query".toList, "prompt".toList, "message".toList]
  let preferred := findByPreferredKeys preferredKeys parsedArgs 0
  if preferred ≠ [] then normalizeText preferred
  else
    let fallback := findFirstScalar parsedArgs 0
    if fallback ≠ [] then normalizeText fallback
    else normalizeText rawArgs

/-- `formatCardLine`. -/
def formatCardLine (card : ToolUsageCard) : List Char :=
  let rid := if card.rolloutId = [] then "-".toList else card.rolloutId
  let pre := ['['] ++ rid ++ [']', '['] ++ card.type ++ [']']
  let text := normalizeText card.content
  if text = [] then pre
  else
    let lines := ((text.splitOn '\n').map trimL).filter (· ≠ [])
    if lines = [] then pre
    else List.intercalate ['\n'] (lines.map (fun line => pre ++ [' '] ++ line))

/-- Strip an accidental `^<!\[CDATA\[` and/or `\]\]>$` wrapper (the
`replace(/^<!\[CDATA\[|\]\]>$/g, "")` in `parseCard`). -/
def stripCdataWrappers (s : List Char) : List Char :=
  let s1 := if CDATA_OPEN.isPrefixOf s then s.drop CDATA_OPEN.length else s
  if CDATA_CLOSE.isSuffixOf s1 then s1.take (s1.length - CDATA_CLOSE.length) else s1

/-- Capture of `/<xai:tool_name>\s*([^<]+?)\s*<\/xai:tool_name>/i` scanned
from occurrence to occurrence of the (case-insensitive) open tag; at each
occurrence the regex matches iff the non-`<` run after the tag is non-empty
and is immediately followed by the close tag.  The returned capture is that
run without surrounding whitespace; an all-whitespace run captures a single
whitespace character in JS, which the caller's `trim` also nullifies, so it
is returned as `[]` here. -/
def toolNameCaptureAux (frag : List Char) : Nat → Nat → Option (List Char)
  | _, 0 => none
  | start, fuel + 1 =>
    match firstIdxOfFrom (toLowerL TOOL_NAME_OPEN) (toLowerL frag) start with
    | none => none
    | some i =>
        let after := frag.drop (i + TOOL_NAME_OPEN.length)
        let seg := after.takeWhile (· ≠ '<')
        let rest := after.drop seg.length
        if seg ≠ [] && (toLowerL TOOL_NAME_CLOSE).isPrefixOf (toLowerL rest) then
          some (trimL seg)
        else toolNameCaptureAux frag (i + 1) fuel

def toolNameCapture (frag : List Char) : Option (List Char) :=
  toolNameCaptureAux frag 0 (frag.length + 1)

/-- First index `m ≥ start` in `remainder` where `]]>` occurs followed
(after a whitespace run) by the case-insensitive `</xai:tool_args>` close
tag — the end chosen by the lazy `([\s\S]*?)` of the args regex. -/
def argsCdataEnd (remainder : List Char) : Nat → Nat → Option Nat
  | _, 0 => none
  | start, fuel + 1 =>
    match firstIdxOfFrom CDATA_CLOSE remainder start with
    | none => none
    | some m =>
        let after := remainder.drop (m + CDATA_CLOSE.length)
        let ws := after.takeWhile jsWhitespace
        if (toLowerL TOOL_ARGS_CLOSE).isPrefixOf (toLowerL (after.drop ws.length)) then
          some m
        else argsCdataEnd remainder (m + 1) fuel

/-- Capture of
`/<xai:tool_args>\s*<!\[CDATA\[([\s\S]*?)\]\]>\s*<\/xai:tool_args>/i`:
at each occurrence of the open tag, skip the whitespace run, require the
(case-insensitive) `<![CDATA[` opener, and end the lazy capture at the first
`]]>` that is followed (after whitespace) by the close tag. -/
def toolArgsCaptureAux (frag : List Char) : Nat → Nat → Option (List Char)
  | _, 0 => none
  | start, fuel + 1 =>
    match firstIdxOfFrom (toLowerL TOOL_ARGS_OPEN) (toLowerL frag) start with
    | none => none
    | some i =>
        let after := frag.drop (i + TOOL_ARGS_OPEN.length)
        let ws := after.takeWhile jsWhitespace
        let rest := after.drop ws.length
        if (toLowerL CDATA_OPEN).isPrefixOf (toLowerL rest) then
          let remainder := rest.drop CDATA_OPEN.length
          match argsCdataEnd remainder 0 (remainder.length + 1) with
          | some m => some (remainder.take m)
          | none => toolArgsCaptureAux frag (i + 1) fuel
        else toolArgsCaptureAux frag (i + 1) fuel

def toolArgsCapture (frag : List Char) : Option (List Char) :=
  toolArgsCaptureAux frag 0 (frag.length + 1)

/-- `parseCard`: both regexes must produce a truthy (non-empty) capture; the
tool name is de-CDATA'd and trimmed and must be non-empty. -/
def parseCard (fragment fallbackRolloutId : List Char) : Option ToolUsageCard :=
  match toolNameCapture fragment, toolArgsCapture fragment with
  | some t, some a =>
      if t = [] || a = [] then none
      else
        let toolName := trimL (stripCdataWrappers t)
        if toolName = [] then none
        else
          let rawArgs := trimL a
          let parsedArgs := parseToolArgs rawArgs
          let type := normalizeToolType toolName
          some { rolloutId := resolveRolloutId parsedArgs fallbackRolloutId
                 type := type
                 content := resolveContent type parsedArgs rawArgs }
  | _, _ => none

/-- `findCardStart`: earliest case-insensitive occurrence of
`<xai:tool_usage_card` or `<xai:tool_name>`. -/
def findCardStart (buffer : List Char) : Option Nat :=
  let lower := toLowerL buffer
  match firstIdxOf TOOL_USAGE_OPEN lower, firstIdxOf TOOL_NAME_OPEN lower with
  | none, n => n
  | u, none => u
  | some u, some n => some (min u n)

/-- `findPartialStart`: last `<xai:` within the trailing 64 characters. -/
def findPartialStart (buffer : List Char) : Option Nat :=
  let lower := toLowerL buffer
  match lastIdxOf PARTIAL_MARKER lower with
  | none => none
  | some idx => if lower.length - idx > 64 then none else some idx

/-- `extractCardFragment`: fragment and its end offset, or `none` while the
required closers have not arrived. -/
def extractCardFragment (buffer : List Char) : Option (List Char × Nat) :=
  let lower := toLowerL buffer
  if startsWithL lower TOOL_USAGE_OPEN then
    match firstIdxOf TOOL_USAGE_CLOSE lower with
    | none => none
    | some closeIdx =>
        let e := closeIdx + TOOL_USAGE_CLOSE.length
        some (buffer.take e, e)
  else if startsWithL lower TOOL_NAME_OPEN then
    match firstIdxOf TOOL_NAME_CLOSE lower with
    | none => none
    | some nameCloseIdx =>
        match firstIdxOfFrom TOOL_ARGS_CLOSE lower (nameCloseIdx + TOOL_NAME_CLOSE.length) with
        | none => none
        | some argsCloseIdx =>
            let e0 := argsCloseIdx + TOOL_ARGS_CLOSE.length
            let trailing := buffer.drop e0
            let trimmedLeading := (trailing.takeWhile jsWhitespace).length
            let maybeUsageClose :=
              toLowerL (sliceL trailing trimmedLeading (trimmedLeading + TOOL_USAGE_CLOSE.length))
            let e :=
              if maybeUsageClose = TOOL_USAGE_CLOSE then
                e0 + trimmedLeading + TOOL_USAGE_CLOSE.length
              else e0
            some (buffer.take e, e)
  else none

structure ConsumeOptions where
  emitLines : Bool
  fallbackRolloutId : List Char := []
  deriving Repr, DecidableEq

structure ConsumeResult where
  text : List Char
  lines : List (List Char)
  deriving Repr, DecidableEq

/-- The `while (this.buffer)` loop of `ToolUsageCardStreamParser.consume`.
Every iteration that does not exit shortens the buffer by at least one
character, so the fuel `buffer.length + 1` supplied by `consume` is never
exhausted. -/
def consumeLoop (emitLines : Bool) (fallback : List Char) :
    Nat → List Char → List Char → List (List Char) →
    List Char × List (List Char) × List Char
  | 0, buffer, accText, accLines => (accText, accLines, buffer)
  | fuel + 1, buffer, accText, accLines =>
    if buffer = [] then (accText, accLines, buffer)
    else match findCardStart buffer with
      | none =>
          (match findPartialStart buffer with
           | none => (accText ++ buffer, accLines, [])
           | some p =>
               if p > 0 then (accText ++ buffer.take p, accLines, buffer.drop p)
               else (accText, accLines, buffer))
      | some start =>
          if start > 0 then
            consumeLoop emitLines fallback fuel (buffer.drop start)
              (accText ++ buffer.take start) accLines
          else match extractCardFragment buffer with
            | none => (accText, accLines, buffer)
            | some (fragment, e) =>
                match parseCard fragment fallback with
                | none =>
                    consumeLoop emitLines fallback fuel (buffer.drop e)
                      (accText ++ fragment) accLines
                | some card =>
                    if emitLines then
                      consumeLoop emitLines fallback fuel (buffer.drop e)
                        accText (accLines ++ [formatCardLine card])
                    else
                      consumeLoop emitLines fallback fuel (buffer.drop e) accText accLines

/-- `ToolUsageCardStreamParser.consume`: the parser state is its buffer;
returns the `{text, lines}` result and the new buffer. -/
def consume (buffer input : List Char) (opts : ConsumeOptions) :
    ConsumeResult × List Char :=
  let buf := if input ≠ [] then buffer ++ input else buffer
  let fallback := trimL opts.fallbackRolloutId
  let (text, lines, buf') := consumeLoop opts.emitLines fallback (buf.length + 1) buf [] []
  ({ text := text, lines := lines }, buf')

/-- `ToolUsageCardStreamParser.flush`. -/
def flush (buffer : List Char) (opts : ConsumeOptions) (emitIncompleteAsText : Bool) :
    ConsumeResult × List Char :=
  let (result, buf') := consume buffer [] opts
  if emitIncompleteAsText && buf' ≠ [] then
    ({ text := result.text ++ buf', lines := result.lines }, [])
  else (result, buf')

/-- `replaceToolUsageCardsInText`: one consume plus a flush with
`emitIncompleteAsText`, concatenated. -/
def replaceToolUsageCardsInText (input : List Char) (opts : ConsumeOptions) :
    ConsumeResult :=
  let (first, b1) := consume [] input opts
  let (tail, _) := flush b1 opts true
  { text := first.text ++ tail.text, lines := first.lines ++ tail.lines }

/-- Feed a list of chunks to one parser in order, concatenating the results
(threading the buffer). -/
def consumeChunks (opts : ConsumeOptions) :
    List (List Char) → List Char → ConsumeResult × List Char
  | [], buffer => ({ text := [], lines := [] }, buffer)
  | c :: rest, buffer =>
      let (r, b') := consume buffer c opts
      let (r', b'') := consumeChunks opts rest b'
      ({ text := r.text ++ r'.text, lines := r.lines ++ r'.lines }, b'')

/-- A complete parser session over chunked input: consume every chunk, then
`flush(emitIncompleteAsText := true)`, concatenating text and lines. -/
def runChunked (opts : ConsumeOptions) (chunks : List (List Char)) : ConsumeResult :=
  let (r, b) := consumeChunks opts chunks []
  let (t, _) := flush b opts true
  { text := r.text ++ t.text, lines := r.lines ++ t.lines }

/-! ### NDJSON → SSE stream transformer (src/unnamed/part_000, lines 61–510)

The transformer is embedded as a state machine over a finite trace of loop
events: each `.line` event is one parsed (or unparseable) NDJSON line, and
`.timeout` / `.exn` are the synthetic-stop and catch paths, which in the
source occur between line-processing steps (a timeout between reads, an
exception from the awaited `onMeta` callback).  Chunk boundaries of the byte
stream only influence which complete lines exist, so line events model every
reachable behaviour.  SSE chunk contents are kept as lists of `Piece`s — the
exact strings the source concatenates — so that the think-wrapper tokens the
machinery emits can be counted; `Piece.renderPiece` recovers the payload
string.  `onMeta`/`onFinish` are collaborator callbacks: the machine counts
`onFinish` invocations and assumes callbacks return normally.  JS `new URL`
is a host builtin and enters as the `tryParseUrl` / `isRootAbsUrl`
parameters of the configuration. -/

def base64Alphabet : List Char :=
  "ABCDEFGHIJKLMNOPQRSTUVWXYZabcdefghijklmnopqrstuvwxyz0123456789+/".toList

def b64char (n : Nat) : Char := base64Alphabet.getD n 'A'

/-- `btoa` over bytes (groups of 3 → 4 chars, `=`-padded). -/
def btoa : List Nat → List Char
  | [] => []
  | [a] => [b64char (a / 4), b64char (a % 4 * 16), '=', '=']
  | [a, b] => [b64char (a / 4), b64char (a % 4 * 16 + b / 16), b64char (b % 16 * 4), '=']
  | a :: b :: c :: rest =>
      [b64char (a / 4), b64char (a % 4 * 16 + b / 16), b64char (b % 16 * 4 + c / 64),
       b64char (c % 64)] ++ btoa rest

/-- `base64UrlEncode`: UTF-8 bytes, `btoa`, URL-safe alphabet, padding
stripped. -/
def base64UrlEncode (input : List Char) : List Char :=
  let bytes := (String.mk input).toUTF8.toList.map (fun b => b.toNat)
  (((btoa bytes).map (fun c => if c = '+' then '-' else if c = '/' then '_' else c)).reverse.dropWhile
      (· = '=')).reverse

/-- `encodeAssetPath`: absolute URLs (those `new URL` accepts, supplied by
`tryParseUrl` as their `toString()`) become `u_<base64url(url)>`, others
`p_<base64url(path)>` with a leading `/` ensured. -/
def encodeAssetPath (tryParseUrl : List Char → Option (List Char)) (raw : List Char) :
    List Char :=
  match tryParseUrl raw with
  | some full => "u_".toList ++ base64UrlEncode full
  | none =>
      let p := if startsWithL raw ['/'] then raw else '/' :: raw
      "p_".toList ++ base64UrlEncode p

/-- `normalizeGeneratedAssetUrls`: keep non-empty trimmed strings, dropping
`"/"` and absolute URLs whose path is `/` with no query/hash
(`isRootAbsUrl`). -/
def normalizeGeneratedAssetUrls (isRootAbsUrl : List Char → Bool)
    (input : Option (List (Option (List Char)))) : List (List Char) :=
  match input with
  | none => []
  | some items =>
      items.foldr
        (fun v out =>
          match v with
          | none => out
          | some raw =>
              let s := trimL raw
              if s = [] then out
              else if s = ['/'] then out
              else if isRootAbsUrl s then out
              else s :: out)
        []

structure VideoRespView where
  progress : Option Int
  videoUrl : Option (List Char)
  thumbnailImageUrl : Option (List Char)
  deriving Repr

structure ModelRespView where
  generatedImageUrls : Option (List (Option (List Char)))
  deriving Repr

/-- The fields of `data.result?.response` the transformer reads.  `rolloutId`
and `toolUsageCardId` hold the `asStr(...)` results (trimmed string or
`""`); `userResponseModel` is `grok.userResponse?.model` when it is a
string; `isThinking` is `Boolean(grok.isThinking)`. -/
structure GrokResponseView where
  userResponseModel : Option (List Char)
  streamingVideoGenerationResponse : Option VideoRespView
  imageAttachmentInfo : Bool
  modelResponse : Option ModelRespView
  token : Option (List Char)
  isThinking : Bool
  messageTag : Option (List Char)
  rolloutId : List Char
  toolUsageCardId : List Char
  deriving Repr

/-- One NDJSON line after `JSON.parse`: `errorMessage` is
`String(data.error.message)` when `data.error?.message` is truthy. -/
structure NdjsonLineView where
  errorMessage : Option (List Char)
  response : Option GrokResponseView
  deriving Repr

structure StreamConfig where
  showThinking : Bool
  showSearch : Bool
  filteredTagsCsv : List Char
  videoPosterPreview : Bool
  baseUrlCfg : List Char
  origin : List Char
  tryParseUrl : List Char → Option (List Char)
  isRootAbsUrl : List Char → Bool

/-- `filteredTags`: CSV split, trimmed, empties dropped. -/
def parseFilteredTags (csv : List Char) : List (List Char) :=
  ((csv.splitOn ',').map trimL).filter (· ≠ [])

/-- `passthroughFilteredTags`: the card opener tag is excluded from generic
filtering. -/
def passthroughFilteredTags (cfg : StreamConfig) : List (List Char) :=
  (parseFilteredTags cfg.filteredTagsCsv).filter
    (fun tag => toLowerL tag ≠ "xai:tool_usage_card".toList)

def shouldEmitToolLines (cfg : StreamConfig) : Bool :=
  cfg.showThinking && cfg.showSearch

def toImgProxyUrl (cfg : StreamConfig) (path : List Char) : List Char :=
  let baseUrl := if trimL cfg.baseUrlCfg ≠ [] then trimL cfg.baseUrlCfg else cfg.origin
  baseUrl ++ "/images/".toList ++ path

/-- `replace(/"/g, "&quot;")`. -/
def escQuotes (s : List Char) : List Char :=
  s.flatMap (fun c => if c = '"' then "&quot;".toList else [c])

def buildVideoTag (src : List Char) : List Char :=
  "<video src=\"".toList ++ src ++
    "\" controls=\"controls\" width=\"500\" height=\"300\"></video>\n".toList

def buildVideoPosterPreview (videoUrl : List Char) (posterUrl : List Char) : List Char :=
  let href := escQuotes videoUrl
  let poster := escQuotes posterUrl
  if href = [] then []
  else if poster = [] then
    "<a href=\"".toList ++ href ++
      "\" target=\"_blank\" rel=\"noopener noreferrer\">".toList ++ href ++ "</a>\n".toList
  else
    "<a href=\"".toList ++ href ++
      "\" target=\"_blank\" rel=\"noopener noreferrer\" style=\"display:inline-block;position:relative;max-width:100%;text-decoration:none;\">\n  <img src=\"".toList ++
      poster ++
      "\" alt=\"video\" style=\"max-width:100%;height:auto;border-radius:12px;display:block;\" />\n  <span style=\"position:absolute;inset:0;display:flex;align-items:center;justify-content:center;\">\n    <span style=\"width:64px;height:64px;border-radius:9999px;background:rgba(0,0,0,.55);display:flex;align-items:center;justify-content:center;\">\n      <span style=\"width:0;height:0;border-top:12px solid transparent;border-bottom:12px solid transparent;border-left:18px solid #fff;margin-left:4px;\"></span>\n    </span>\n  </span>\n</a>\n".toList

def buildVideoHtml (posterPreview : Bool) (videoUrl : List Char)
    (posterUrl : Option (List Char)) : List Char :=
  if posterPreview then buildVideoPosterPreview videoUrl (posterUrl.getD [])
  else buildVideoTag videoUrl

/-- A fragment of an SSE chunk's `content`, distinguishing the think-wrapper
tokens the transformer itself emits from pass-through text. -/
inductive Piece
  | text (s : List Char)
  | thinkOpen
  | thinkClose
  | videoOpen (p : Int)
  | videoMid (p : Int)
  | videoClose (p : Int)
  | videoCloseBare
  deriving Repr, DecidableEq

/-- The exact string the source concatenates for each piece. -/
def renderPiece : Piece → List Char
  | .text s => s
  | .thinkOpen => "<think>\n".toList
  | .thinkClose => "\n</think>\n".toList
  | .videoOpen p => "<think>视频已生成".toList ++ (toString p).toList ++ "%\n".toList
  | .videoMid p => "视频已生成".toList ++ (toString p).toList ++ "%\n".toList
  | .videoClose p => "视频已生成".toList ++ (toString p).toList ++ "%</think>\n".toList
  | .videoCloseBare => "</think>\n".toList

inductive FinishReason
  | stop
  | error
  deriving Repr, DecidableEq

/-- One SSE frame: a chat-completion chunk (`makeChunk`) or `data: [DONE]`. -/
inductive Frame
  | chunk (model : List Char) (pieces : List Piece) (finish : Option FinishReason)
  | done
  deriving Repr, DecidableEq

structure StreamState where
  currentModel : List Char
  isImage : Bool
  thinkTagOpen : Bool
  lastIsThinking : Bool
  videoProgressStarted : Bool
  lastVideoProgress : Int
  lastToolRolloutId : List Char
  toolBuffer : List Char
  deriving Repr

def initialStreamState : StreamState :=
  { currentModel := "grok-4-mini-thinking-tahoe".toList
    isImage := false
    thinkTagOpen := false
    lastIsThinking := false
    videoProgressStarted := false
    lastVideoProgress := -1
    lastToolRolloutId := []
    toolBuffer := [] }

/-- `emitTextDelta`: think-wrapper transitions, then lines and body text
(suppressed while thinking with `showThinking` off); a single chunk is
enqueued iff the joined payload is non-empty. -/
def emitTextDelta (cfg : StreamConfig) (st : StreamState) (text : List Char)
    (lines : List (List Char)) (isThinking : Bool) (messageTag : Option (List Char)) :
    StreamState × List Frame :=
  let (openPieces, thinkTagOpen') :=
    if cfg.showThinking then
      if isThinking && !st.thinkTagOpen then ([Piece.thinkOpen], true)
      else if !isThinking && st.thinkTagOpen then ([Piece.thinkClose], false)
      else ([], st.thinkTagOpen)
    else ([], st.thinkTagOpen)
  let contentPieces :=
    if !isThinking || cfg.showThinking then
      (lines.map (fun line => Piece.text (line ++ ['\n']))) ++
        (if text ≠ [] then
          [Piece.text
            (if messageTag = some "header".toList then
              "\n\n".toList ++ text ++ "\n\n".toList
            else text)]
         else [])
    else []
  let pieces := openPieces ++ contentPieces
  let frames :=
    if (pieces.map renderPiece).flatten ≠ [] then [Frame.chunk st.currentModel pieces none]
    else []
  ({ st with thinkTagOpen := thinkTagOpen', lastIsThinking := isThinking }, frames)

/-- `flushToolBuffer`. -/
def flushToolBuffer (cfg : StreamConfig) (st : StreamState) (isThinkingFrame : Bool) :
    StreamState × List Frame :=
  let opts : ConsumeOptions :=
    { emitLines := shouldEmitToolLines cfg, fallbackRolloutId := st.lastToolRolloutId }
  let (flushed, buf') := flush st.toolBuffer opts true
  let st' := { st with toolBuffer := buf' }
  if flushed.text = [] && flushed.lines = [] then (st', [])
  else emitTextDelta cfg st' flushed.text flushed.lines isThinkingFrame none

/-- `closeThinkWrappers`: close an open text think block, then an open
video-progress think block (each as its own chunk). -/
def closeThinkWrappers (cfg : StreamConfig) (st : StreamState) :
    StreamState × List Frame :=
  let (st1, f1) :=
    if cfg.showThinking && st.thinkTagOpen then
      ({ st with thinkTagOpen := false },
       [Frame.chunk st.currentModel [Piece.thinkClose] none])
    else (st, [])
  let (st2, f2) :=
    if cfg.showThinking && st1.videoProgressStarted then
      ({ st1 with videoProgressStarted := false },
       [Frame.chunk st1.currentModel [Piece.videoCloseBare] none])
    else (st1, [])
  (st2, f1 ++ f2)

/-- `flushStop`: tool flush, think closes, empty `finish_reason:"stop"`
chunk, `[DONE]`. -/
def flushStop (cfg : StreamConfig) (st : StreamState) : StreamState × List Frame :=
  let (st1, f1) := flushToolBuffer cfg st st.lastIsThinking
  let (st2, f2) := closeThinkWrappers cfg st1
  (st2, f1 ++ f2 ++ [Frame.chunk st2.currentModel [] (some .stop), Frame.done])

/-- Model adoption: `grok.userResponse?.model` when a non-blank string. -/
def updateModelFromUserResponse (grok : GrokResponseView) (st : StreamState) : StreamState :=
  match grok.userResponseModel with
  | some m => if trimL m ≠ [] then { st with currentModel := trimL m } else st
  | none => st

/-- The video-generation branch (lines 375–424). -/
def processVideo (cfg : StreamConfig) (st : StreamState) (videoResp : VideoRespView) :
    StreamState × List Frame × Bool :=
  let progress := videoResp.progress.getD 0
  let videoUrl := videoResp.videoUrl.getD []
  let thumbUrl := videoResp.thumbnailImageUrl.getD []
  let (st1, progressFrames) :=
    if progress > st.lastVideoProgress then
      let stp := { st with lastVideoProgress := progress }
      if cfg.showThinking then
        if !stp.videoProgressStarted then
          ({ stp with videoProgressStarted := true },
           [Frame.chunk stp.currentModel [Piece.videoOpen progress] none])
        else if progress < 100 then
          (stp, [Frame.chunk stp.currentModel [Piece.videoMid progress] none])
        else
          ({ stp with videoProgressStarted := false },
           [Frame.chunk stp.currentModel [Piece.videoClose progress] none])
      else (stp, [])
    else (st, [])
  let urlFrames :=
    if videoUrl ≠ [] then
      let src := toImgProxyUrl cfg (encodeAssetPath cfg.tryParseUrl videoUrl)
      let poster :=
        if thumbUrl ≠ [] then
          some (toImgProxyUrl cfg (encodeAssetPath cfg.tryParseUrl thumbUrl))
        else none
      [Frame.chunk st1.currentModel
        [Piece.text (buildVideoHtml cfg.videoPosterPreview src poster)] none]
    else []
  (st1, progressFrames ++ urlFrames, false)

/-- The image branch (lines 429–455), entered while `isImage` is sticky. -/
def processImage (cfg : StreamConfig) (st : StreamState) (grok : GrokResponseView) :
    StreamState × List Frame × Bool :=
  match grok.modelResponse with
  | some modelResp =>
      let urls := normalizeGeneratedAssetUrls cfg.isRootAbsUrl modelResp.generatedImageUrls
      if urls ≠ [] then
        let linesOut := urls.map (fun u =>
          "![Generated Image](".toList ++
            toImgProxyUrl cfg (encodeAssetPath cfg.tryParseUrl u) ++ [')'])
        let (st2, f2) := closeThinkWrappers cfg st
        (st2,
         [Frame.chunk st.currentModel
            [Piece.text (List.intercalate ['\n'] linesOut)] (some .stop)] ++
           f2 ++ [Frame.done],
         true)
      else (st, [], false)
  | none =>
      match grok.token with
      | some tok =>
          if tok ≠ [] then
            (st, [Frame.chunk st.currentModel [Piece.text tok] none], false)
          else (st, [], false)
      | none => (st, [], false)

/-- The default text-chat branch (lines 457–478). -/
def processText (cfg : StreamConfig) (st : StreamState) (grok : GrokResponseView) :
    StreamState × List Frame × Bool :=
  let currentIsThinking := grok.isThinking
  let st :=
    if grok.rolloutId ≠ [] then { st with lastToolRolloutId := grok.rolloutId }
    else if grok.toolUsageCardId ≠ [] then
      { st with lastToolRolloutId := grok.toolUsageCardId }
    else st
  let token0 := grok.token.getD []
  let token :=
    if token0 ≠ [] &&
        (passthroughFilteredTags cfg).any (fun tag => includesL token0 tag) then []
    else token0
  let opts : ConsumeOptions :=
    { emitLines := shouldEmitToolLines cfg
      fallbackRolloutId := st.lastToolRolloutId }
  let (parsed, buf') := consume st.toolBuffer token opts
  let st := { st with toolBuffer := buf' }
  let (st', frames) :=
    emitTextDelta cfg st parsed.text parsed.lines currentIsThinking grok.messageTag
  (st', frames, false)

/-- Processing of `data.result?.response` (lines 368–478). -/
def processGrok (cfg : StreamConfig) (st0 : StreamState) (grok : GrokResponseView) :
    StreamState × List Frame × Bool :=
  let st := updateModelFromUserResponse grok st0
  match grok.streamingVideoGenerationResponse with
  | some videoResp => processVideo cfg st videoResp
  | none =>
      let st := if grok.imageAttachmentInfo then { st with isImage := true } else st
      if st.isImage then processImage cfg st grok else processText cfg st grok

/-- Per-line processing (lines 341–479).  Returns the new state, the frames
enqueued, and whether the stream terminated (error frame or image
terminal). -/
def processLine (cfg : StreamConfig) (st : StreamState) (l : Option NdjsonLineView) :
    StreamState × List Frame × Bool :=
  match l with
  | none => (st, [], false)
  | some data =>
    match data.errorMessage with
    | some msg =>
        let (st1, f1) := flushToolBuffer cfg st st.lastIsThinking
        let (st2, f2) := closeThinkWrappers cfg st1
        (st2,
         f1 ++ f2 ++
           [Frame.chunk st2.currentModel [Piece.text ("Error: ".toList ++ msg)] (some .stop),
            Frame.done],
         true)
    | none =>
      match data.response with
      | none => (st, [], false)
      | some grok => processGrok cfg st grok

/-- One loop event of a stream run. -/
inductive StreamEvent
  | line (l : Option NdjsonLineView)
  | timeout
  | exn (msg : List Char)

/-- The stream loop: line events are processed until a terminal path fires;
an exhausted trace is the upstream end-of-stream.  Returns the frames
emitted and the number of `onFinish` invocations. -/
def runStream (cfg : StreamConfig) : List StreamEvent → StreamState → List Frame × Nat
  | [], st => ((flushStop cfg st).2, 1)
  | e :: rest, st =>
    match e with
    | .timeout => ((flushStop cfg st).2, 1)
    | .exn msg =>
        let (st1, f1) := flushToolBuffer cfg st st.lastIsThinking
        let (st2, f2) := closeThinkWrappers cfg st1
        (f1 ++ f2 ++
           [Frame.chunk st2.currentModel [Piece.text ("处理错误: ".toList ++ msg)] (some .error),
            Frame.done],
         1)
    | .line l =>
        let (st', fs, term) := processLine cfg st l
        if term then (fs, 1)
        else
          let (fs', n) := runStream cfg rest st'
          (fs ++ fs', n)

/-- `createOpenAiStreamFromGrokNdjson`: a null body short-circuits with the
`"Empty response"` error chunk and `[DONE]` and never calls `onFinish`;
otherwise the loop runs from the initial state. -/
def createOpenAiStreamFromGrokNdjson (cfg : StreamConfig)
    (body : Option (List StreamEvent)) : List Frame × Nat :=
  match body with
  | none =>
      ([Frame.chunk "grok-4-mini-thinking-tahoe".toList [Piece.text "Empty response".toList]
          (some .error),
        Frame.done], 0)
  | some events => runStream cfg events initialStreamState

/-! ### Derived observations used by the theorems -/

/-- Number of `data: [DONE]` frames in an output trace. -/
def countDone (fs : List Frame) : Nat :=
  fs.countP (fun f => f = Frame.done)

/-- `<think>` opening tokens contributed by a piece (the text-think opener
and the video-progress opener each contain exactly one `<think>`). -/
def pieceOpens : Piece → Nat
  | .thinkOpen => 1
  | .videoOpen _ => 1
  | _ => 0

/-- `</think>` closing tokens contributed by a piece. -/
def pieceCloses : Piece → Nat
  | .thinkClose => 1
  | .videoClose _ => 1
  | .videoCloseBare => 1
  | _ => 0

def frameOpens : Frame → Nat
  | .chunk _ ps _ => (ps.map pieceOpens).sum
  | .done => 0

def frameCloses : Frame → Nat
  | .chunk _ ps _ => (ps.map pieceCloses).sum
  | .done => 0

def opensCount (fs : List Frame) : Nat := (fs.map frameOpens).sum

def closesCount (fs : List Frame) : Nat := (fs.map frameCloses).sum

/-- Think blocks still open in a state: the text think wrapper and the
video-progress think wrapper. -/
def thinkBal (st : StreamState) : Nat :=
  (if st.thinkTagOpen then 1 else 0) + (if st.videoProgressStarted then 1 else 0)

/-- Case-insensitive occurrence test for the `<xai:` marker, the guard of
the marker-free split-invariance statement. -/
def hasXaiMarker (l : List Char) : Bool :=
  includesL (toLowerL l) PARTIAL_MARKER

/-- Primary-key uniqueness of the conversations table (the schema's
`PRIMARY KEY (scope, openai_conversation_id)`). -/
def PKUnique (table : List ConversationRow) : Prop :=
  (table.map (fun r => (r.scope, r.openai_conversation_id))).Nodup

/-- Rows of a table belonging to a `(scope, token)` cluster. -/
def rowsForToken (table : List ConversationRow) (scope token : String) :
    List ConversationRow :=
  table.filter (fun r => r.scope = scope && r.token = token)

/-- The history-hash parts as the spec words them: `system:<t>` for each
system message with non-empty extracted text, in order, then `user:<t>`
likewise, with the last user part dropped iff `excludeLastUser`, an
assistant message is present, and a user part exists. -/
def historyHashPartsSpec (messages : List GenericMessage) (excludeLastUser : Bool) :
    List String :=
  let sysParts := messages.filterMap (fun m =>
    if m.role.getD "" = "system" && trimS (extractText m.content) ≠ "" then
      some ("system:" ++ trimS (extractText m.content))
    else none)
  let usrParts := messages.filterMap (fun m =>
    if m.role.getD "" = "user" && trimS (extractText m.content) ≠ "" then
      some ("user:" ++ trimS (extractText m.content))
    else none)
  let hasAssistant := messages.any (fun m => m.role.getD "" = "assistant")
  let usedUsers :=
    if excludeLastUser && hasAssistant && usrParts.length > 0 then
      usrParts.take (usrParts.length - 1)
    else usrParts
  sysParts ++ usedUsers

/-- The hash as the spec words it. -/
def historyHashSpec (sha256Hex : String → String) (messages : List GenericMessage)
    (excludeLastUser : Bool) : String :=
  let parts := historyHashPartsSpec messages excludeLastUser
  if parts = [] then "" else sha256Hex (String.intercalate "\n" parts)

/-- Auxiliary invariant of the stream machine: with `showThinking` off the
transformer never opens a think wrapper, so both wrapper flags stay down. -/
def BalInv (cfg : StreamConfig) (st : StreamState) : Prop :=
  cfg.showThinking = false → st.thinkTagOpen = false ∧ st.videoProgressStarted = false

/-- A concrete conversation row used by witnesses and counterexamples. -/
def sampleRow1 : ConversationRow :=
  { scope := "s", openai_conversation_id := "c1", grok_conversation_id := "g1",
    last_response_id := "r1", share_link_id := "", token := "t", history_hash := "h1",
    created_at := 1, updated_at := 2, expires_at := 5 }

/-- A second concrete conversation row (same scope and token, later
`expires_at`). -/
def sampleRow2 : ConversationRow :=
  { scope := "s", openai_conversation_id := "c2", grok_conversation_id := "g2",
    last_response_id := "r2", share_link_id := "", token := "t", history_hash := "h2",
    created_at := 1, updated_at := 3, expires_at := 6 }

/-! ## Theorems -/

/-! ### C5 — gRPC-Web encode/parse roundtrip -/

theorem isProbablyBase64Body_zero (rest : List Nat) :
    isProbablyBase64Body (0 :: rest) = false := by
  unfold isProbablyBase64Body
  rw [if_neg (by simp)]
  have h1 : min ((0 :: rest).length) 1024 = (min rest.length 1023) + 1 := by
    simp only [List.length_cons]; omega
  rw [h1, List.take_succ_cons]
  simp [base64BodyByteOk]

theorem maybeDecode_encode (P : List Nat) :
    maybeDecodeGrpcWebText (encodeGrpcWebFrame P) [] = encodeGrpcWebFrame P := by
  unfold maybeDecodeGrpcWebText
  have hinc : includesL (toLowerL []) "grpc-web-text".toList = false := by decide
  rw [hinc]
  simp only [Bool.not_false, Bool.true_and]
  rw [show encodeGrpcWebFrame P = 0 :: ([P.length / 2 ^ 24 % 256, P.length / 2 ^ 16 % 256,
        P.length / 2 ^ 8 % 256, P.length % 256] ++ P) from rfl]
  rw [isProbablyBase64Body_zero]
  simp

theorem sint32_of_be32 (n : Nat) (h : n < 2 ^ 31) :
    sint32OfBytes (n / 2 ^ 24 % 256) (n / 2 ^ 16 % 256) (n / 2 ^ 8 % 256) (n % 256) = n := by
  unfold sint32OfBytes
  have e : n / 2 ^ 24 % 256 % 256 * 2 ^ 24 + n / 2 ^ 16 % 256 % 256 * 2 ^ 16 +
      n / 2 ^ 8 % 256 % 256 * 2 ^ 8 + n % 256 % 256 = n := by omega
  simp only [e]
  rw [if_pos (by exact_mod_cast h)]

theorem parseFrames_encode (P : List Nat) (h : P.length < 2 ^ 31) :
    parseFrames (encodeGrpcWebFrame P) [] [] = .ok ([P], []) := by
  rw [show encodeGrpcWebFrame P = 0 :: P.length / 2 ^ 24 % 256 :: P.length / 2 ^ 16 % 256 ::
        P.length / 2 ^ 8 % 256 :: P.length % 256 :: P from rfl]
  rw [parseFrames]
  rw [dif_neg (by simp)]
  simp only [List.headD_cons, List.getD_cons_succ, List.getD_cons_zero,
    sint32_of_be32 P.length h]
  have hc : ¬((decide (((P.length : Nat) : Int) < 0) ||
      decide ((5 : Int) + ((P.length : Nat) : Int) >
        ((0 :: P.length / 2 ^ 24 % 256 :: P.length / 2 ^ 16 % 256 ::
          P.length / 2 ^ 8 % 256 :: P.length % 256 :: P).length : Int))) = true) := by
    simp only [List.length_cons, decide_eq_true_eq, Bool.or_eq_true, not_or, not_lt]
    refine ⟨by positivity, by push_cast; omega⟩
  rw [if_neg hc]
  rw [if_neg (by norm_num), if_neg (by norm_num)]
  have htoNat : (((P.length : Nat) : Int)).toNat = P.length := by simp
  have hdrop : (0 :: P.length / 2 ^ 24 % 256 :: P.length / 2 ^ 16 % 256 ::
      P.length / 2 ^ 8 % 256 :: P.length % 256 :: P).drop 5 = P := rfl
  have hdrop2 : (0 :: P.length / 2 ^ 24 % 256 :: P.length / 2 ^ 16 % 256 ::
      P.length / 2 ^ 8 % 256 :: P.length % 256 :: P).drop (5 + P.length) = [] := by
    apply List.drop_eq_nil_of_le
    simp only [List.length_cons]
    omega
  simp only [htoNat, hdrop, hdrop2, List.take_length]
  rw [parseFrames]
  simp

/-- C5 (amended): for every byte payload shorter than 2^31 bytes,
`parseGrpcWebResponse` applied to the body `encodeGrpcWebFrame(P)` with no
headers yields exactly the single message `P` (and empty trailers, null
status, empty message).  The bound is forced by the signed 32-bit length
decode (`(b1 << 24) | …`). -/
theorem C5_parse_encode_roundtrip (P : List Nat) (h : P.length < 2 ^ 31) :
    parseGrpcWebResponse (encodeGrpcWebFrame P) none none =
      .ok { messages := [P], trailers := [], grpc_status := none, grpc_message := [] } := by
  unfold parseGrpcWebResponse
  simp only [Option.getD_none, maybeDecode_encode, parseFrames_encode P h, readHeader,
    assocGet, List.find?_nil, Option.map_none]
  simp [parseGrpcStatus, trimL, trimStartL, trimEndL]

/-- C5 witness: the roundtrip at the concrete payload `[1, 2, 3]`. -/
theorem C5_roundtrip_witness :
    parseGrpcWebResponse (encodeGrpcWebFrame [1, 2, 3]) none none =
      .ok { messages := [[1, 2, 3]], trailers := [], grpc_status := none,
            grpc_message := [] } :=
  C5_parse_encode_roundtrip [1, 2, 3] (by norm_num)

theorem maybeDecode_zeroHead (rest : List Nat) :
    maybeDecodeGrpcWebText (0 :: rest) [] = 0 :: rest := by
  unfold maybeDecodeGrpcWebText
  rw [show includesL (toLowerL []) "grpc-web-text".toList = false from by decide]
  rw [isProbablyBase64Body_zero]
  simp

theorem encode_len_2_31 (P : List Nat) (hP : P.length = 2 ^ 31) :
    encodeGrpcWebFrame P = 0 :: 128 :: 0 :: 0 :: 0 :: P := by
  show 0 :: [P.length / 2 ^ 24 % 256, P.length / 2 ^ 16 % 256, P.length / 2 ^ 8 % 256,
    P.length % 256] ++ P = _
  rw [hP]
  norm_num

theorem parseFrames_big (P : List Nat) (hP : P.length = 2 ^ 31) :
    parseFrames (0 :: 128 :: 0 :: 0 :: 0 :: P) [] [] = .ok ([], []) := by
  rw [parseFrames]
  rw [dif_neg (by simp only [List.length_cons]; omega)]
  have hs : sint32OfBytes 128 0 0 0 = -2147483648 := by unfold sint32OfBytes; norm_num
  have h1 : (0 :: 128 :: 0 :: 0 :: 0 :: P).headD 0 = 0 := rfl
  have h2 : (0 :: 128 :: 0 :: 0 :: 0 :: P).getD 1 0 = 128 := rfl
  have h3 : (0 :: 128 :: 0 :: 0 :: 0 :: P).getD 2 0 = 0 := rfl
  have h4 : (0 :: 128 :: 0 :: 0 :: 0 :: P).getD 3 0 = 0 := rfl
  have h5 : (0 :: 128 :: 0 :: 0 :: 0 :: P).getD 4 0 = 0 := rfl
  rw [h1, h2, h3, h4, h5, hs]
  rw [if_pos ?hpos]
  case hpos =>
    rw [Bool.or_eq_true]
    left
    rw [decide_eq_true_eq]
    norm_num
  rfl

theorem parseGrpcWebResponse_ok_empty (body : List Nat)
    (hdec : maybeDecodeGrpcWebText body [] = body)
    (hpf : parseFrames body [] [] = .ok ([], [])) :
    parseGrpcWebResponse body none none =
      .ok { messages := [], trailers := [], grpc_status := none, grpc_message := [] } := by
  unfold parseGrpcWebResponse
  simp only [Option.getD_none, hdec, hpf, readHeader, assocGet, List.find?_nil]
  simp [parseGrpcStatus, trimL, trimStartL, trimEndL]

/-- C5 counterexample: at the concrete payload of 2^31 zero bytes, the frame
length comes out negative in the signed 32-bit decode, the walk stops, and
`parseGrpcWebResponse (encodeGrpcWebFrame P)` yields *no* messages — not
`[P]` as the claim states for every payload. -/
theorem C5_counterexample :
    parseGrpcWebResponse (encodeGrpcWebFrame (List.replicate (2 ^ 31) 0)) none none =
      .ok { messages := [], trailers := [], grpc_status := none, grpc_message := [] } ∧
    ([] : List (List Nat)) ≠ [List.replicate (2 ^ 31) 0] := by
  constructor
  · have hP : (List.replicate (2 ^ 31) (0 : Nat)).length = 2 ^ 31 := List.length_replicate _ _
    rw [encode_len_2_31 _ hP]
    exact parseGrpcWebResponse_ok_empty _ (maybeDecode_zeroHead _) (parseFrames_big _ hP)
  · exact fun h => List.noConfusion h

/-! ### C6 — history hash -/

theorem collectParts_go (messages : List GenericMessage) (sys usr : List String) (hA : Bool) :
    messages.foldl
      (fun acc msg =>
        let (sys, usr, hasAssistant) := acc
        let role := msg.role.getD ""
        if role = "assistant" then (sys, usr, true)
        else
          let text := trimS (extractText msg.content)
          if text = "" then acc
          else if role = "system" then (sys ++ ["system:" ++ text], usr, hasAssistant)
          else if role = "user" then (sys, usr ++ ["user:" ++ text], hasAssistant)
          else acc)
      (sys, usr, hA) =
    (sys ++ messages.filterMap (fun m =>
        if m.role.getD "" = "system" && trimS (extractText m.content) ≠ "" then
          some ("system:" ++ trimS (extractText m.content))
        else none),
     usr ++ messages.filterMap (fun m =>
        if m.role.getD "" = "user" && trimS (extractText m.content) ≠ "" then
          some ("user:" ++ trimS (extractText m.content))
        else none),
     hA || messages.any (fun m => m.role.getD "" = "assistant")) := by
  induction messages generalizing sys usr hA with
  | nil => simp
  | cons m rest ih =>
      simp only [List.foldl_cons, List.filterMap_cons, List.any_cons]
      by_cases hrole : m.role.getD "" = "assistant"
      · simp only [hrole, if_pos rfl]
        rw [ih]
        simp [hrole]
      · by_cases htext : trimS (extractText m.content) = ""
        · simp only [if_neg hrole, htext, if_pos rfl]
          rw [ih]
          simp [hrole, htext]
        · by_cases hsys : m.role.getD "" = "system"
          · simp only [if_neg hrole, if_neg htext, if_pos hsys]
            rw [ih]
            simp [hrole, htext, hsys]
          · by_cases husr : m.role.getD "" = "user"
            · simp only [if_neg hrole, if_neg htext, if_neg hsys, if_pos husr]
              rw [ih]
              simp [hrole, htext, hsys, husr]
            · simp only [if_neg hrole, if_neg htext, if_neg hsys, if_neg husr]
              rw [ih]
              simp [hrole, htext, hsys, husr]

theorem collectParts_spec (messages : List GenericMessage) :
    collectParts messages =
      (messages.filterMap (fun m =>
          if m.role.getD "" = "system" && trimS (extractText m.content) ≠ "" then
            some ("system:" ++ trimS (extractText m.content))
          else none),
       messages.filterMap (fun m =>
          if m.role.getD "" = "user" && trimS (extractText m.content) ≠ "" then
            some ("user:" ++ trimS (extractText m.content))
          else none),
       messages.any (fun m => m.role.getD "" = "assistant")) := by
  unfold collectParts
  rw [collectParts_go]
  simp

/-- C6: `computeHistoryHash` equals the spec-side formulation (ordered
`system:` parts then `user:` parts of trimmed non-empty extracted text, the
last user part dropped iff `excludeLastUser` holds together with an
assistant message and a user part; `""` when no parts remain, else the hash
of the newline-joined parts); in particular the four-message example hashes
to `sha("system:S\nuser:U1")`, identical to the hash of the prefix without
the final user message under `excludeLastUser = false`. -/
theorem C6_computeHistoryHash :
    (∀ (sha : String → String) (messages : List GenericMessage) (excl : Bool),
        computeHistoryHash sha messages excl = historyHashSpec sha messages excl) ∧
    (∀ (sha : String → String) (S U1 A1 U2 : String),
        trimS S ≠ "" → trimS U1 ≠ "" → trimS U2 ≠ "" →
        computeHistoryHash sha
            [⟨some "system", .str S⟩, ⟨some "user", .str U1⟩,
             ⟨some "assistant", .str A1⟩, ⟨some "user", .str U2⟩] true =
          sha ("system:" ++ trimS S ++ "\n" ++ ("user:" ++ trimS U1)) ∧
        computeHistoryHash sha
            [⟨some "system", .str S⟩, ⟨some "user", .str U1⟩,
             ⟨some "assistant", .str A1⟩] false =
          sha ("system:" ++ trimS S ++ "\n" ++ ("user:" ++ trimS U1))) := by
  have main : ∀ (sha : String → String) (messages : List GenericMessage) (excl : Bool),
      computeHistoryHash sha messages excl = historyHashSpec sha messages excl := by
    intro sha messages excl
    unfold computeHistoryHash historyHashSpec historyHashPartsSpec
    cases messages with
    | nil => simp
    | cons m rest =>
        rw [if_neg (by simp)]
        rw [collectParts_spec]
        simp only [List.length_eq_zero]
  refine ⟨main, fun sha S U1 A1 U2 hS hU1 hU2 => ⟨?_, ?_⟩⟩
  · rw [main]
    unfold historyHashSpec historyHashPartsSpec extractText
    simp only [List.filterMap_cons, List.any_cons, List.filterMap_nil, List.any_nil]
    simp [hS, hU1, hU2]
    rfl
  · rw [main]
    unfold historyHashSpec historyHashPartsSpec extractText
    simp only [List.filterMap_cons, List.any_cons, List.filterMap_nil, List.any_nil]
    simp [hS, hU1, hU2]
    rfl

/-- C6 witness: the example instance at concrete strings and a concrete
hash function. -/
theorem C6_witness :
    computeHistoryHash (fun s => "sha(" ++ s ++ ")")
        [⟨some "system", .str "S"⟩, ⟨some "user", .str "U1"⟩,
         ⟨some "assistant", .str "A1"⟩, ⟨some "user", .str "U2"⟩] true =
      "sha(" ++ ("system:" ++ trimS "S" ++ "\n" ++ ("user:" ++ trimS "U1")) ++ ")" :=
  (C6_computeHistoryHash.2 (fun s => "sha(" ++ s ++ ")") "S" "U1" "A1" "U2"
    (by decide) (by decide) (by decide)).1

/-! ### C7, C8, C10 — conversation store -/

def rowKey (r : ConversationRow) : String × String := (r.scope, r.openai_conversation_id)

theorem countP_disjoint_or {α : Type} (t : List α) (p q : α → Bool)
    (h : ∀ r ∈ t, ¬(p r = true ∧ q r = true)) :
    t.countP (fun r => p r || q r) = t.countP p + t.countP q := by
  induction t with
  | nil => simp
  | cons a rest ih =>
      simp only [List.countP_cons]
      rw [ih (fun r hr => h r (List.mem_cons_of_mem a hr))]
      have ha := h a (List.mem_cons_self a rest)
      cases hp : p a <;> cases hq : q a <;> simp_all <;> omega

theorem countP_key_eq_one {α κ : Type} [DecidableEq κ] (key : α → κ) (t : List α) (s : α)
    (hnd : (t.map key).Nodup) (hs : s ∈ t) :
    t.countP (fun r => key r = key s) = 1 := by
  have h1 : (t.map key).count (key s) = 1 :=
    List.count_eq_one_of_mem hnd (List.mem_map_of_mem key hs)
  rw [List.count_eq_countP] at h1
  rw [List.countP_map] at h1
  rw [← h1]
  apply List.countP_congr
  intro r _
  simp only [Function.comp_apply, beq_iff_eq, decide_eq_true_eq]

theorem countP_any_key {α κ : Type} [DecidableEq κ] (key : α → κ) (t sel : List α)
    (hnd : (t.map key).Nodup) (hsub : ∀ s ∈ sel, s ∈ t)
    (hselnd : (sel.map key).Nodup) :
    t.countP (fun r => sel.any (fun s => key r = key s)) = sel.length := by
  induction sel with
  | nil => simp
  | cons s rest ih =>
      simp only [List.map_cons, List.nodup_cons] at hselnd
      have hcongr : t.countP (fun r => (s :: rest).any (fun x => key r = key x)) =
          t.countP (fun r => (decide (key r = key s)) ||
            rest.any (fun x => key r = key x)) := by
        apply List.countP_congr
        intro r _
        simp [List.any_cons]
      rw [hcongr]
      rw [countP_disjoint_or]
      · rw [countP_key_eq_one key t s hnd (hsub s (List.mem_cons_self s rest))]
        rw [ih (fun x hx => hsub x (List.mem_cons_of_mem s hx)) hselnd.2]
        simp [List.length_cons]
        omega
      · rintro r _ ⟨h1, h2⟩
        simp only [decide_eq_true_eq] at h1
        simp only [List.any_eq_true, decide_eq_true_eq] at h2
        obtain ⟨x, hx, hkx⟩ := h2
        apply hselnd.1
        rw [← h1, hkx]
        exact List.mem_map_of_mem key hx

theorem countP_not_add {α : Type} (t : List α) (p : α → Bool) :
    t.countP (fun r => !(p r)) + t.countP p = t.length := by
  induction t with
  | nil => simp
  | cons a rest ih =>
      simp only [List.countP_cons, List.length_cons]
      cases h : p a <;> simp [h] <;> omega

theorem filter_out_selected (table sel : List ConversationRow)
    (hU : PKUnique table) (hsub : ∀ s ∈ sel, s ∈ table)
    (hnd : (sel.map rowKey).Nodup) :
    (table.filter (fun r => !(sel.any (fun s => rowKey r = rowKey s)))).length
        = table.length - sel.length ∧
    (∀ r, r ∈ table.filter (fun r => !(sel.any (fun s => rowKey r = rowKey s))) ↔
      (r ∈ table ∧ r ∉ sel)) := by
  constructor
  · rw [← List.countP_eq_length_filter]
    have htot := countP_not_add table (fun r => sel.any (fun s => rowKey r = rowKey s))
    have hcnt := countP_any_key rowKey table sel hU hsub hnd
    omega
  · intro r
    rw [List.mem_filter]
    constructor
    · rintro ⟨hmem, hnotany⟩
      refine ⟨hmem, fun hrs => ?_⟩
      simp only [Bool.not_eq_true'] at hnotany
      rw [List.any_eq_false] at hnotany
      exact absurd (by simp : decide (rowKey r = rowKey r) = true)
        (by simpa using hnotany r hrs)
    · rintro ⟨hmem, hnotin⟩
      refine ⟨hmem, ?_⟩
      simp only [Bool.not_eq_true']
      rw [List.any_eq_false]
      intro s hs
      simp only [decide_eq_true_eq]
      intro heq
      exact hnotin (List.inj_on_of_nodup_map hU hmem (hsub s hs) heq ▸ hs)

theorem matchesPK_eq_rowKey (scope : String) (s r : ConversationRow) (hs : s.scope = scope) :
    matchesPK scope s.openai_conversation_id r = decide (rowKey r = rowKey s) := by
  unfold matchesPK rowKey
  subst hs
  cases h1 : decide (r.scope = s.scope) <;>
    cases h2 : decide (r.openai_conversation_id = s.openai_conversation_id) <;>
      simp_all [Prod.ext_iff]

theorem any_matchesPK_eq (scope : String) (r : ConversationRow) :
    ∀ (sel : List ConversationRow), (∀ s ∈ sel, s.scope = scope) →
      (sel.any (fun s => matchesPK scope s.openai_conversation_id r)) =
      (sel.any (fun s => decide (rowKey r = rowKey s)))
  | [], _ => rfl
  | s :: rest, h => by
      simp only [List.any_cons]
      rw [matchesPK_eq_rowKey scope s r (h s (List.mem_cons_self _ _)),
        any_matchesPK_eq scope r rest (fun x hx => h x (List.mem_cons_of_mem _ hx))]

/-- C7 (amended): after `trimConversationsForToken(scope, token, keep)` on a
table with unique primary keys, at most `max 1 (keep or-1)` rows remain for
the `(scope, token)` pair — exactly the prefix of the `updated_at`-descending
order — and the returned value equals the number of rows deleted.  The
`max 1 (keep || 1)` bound replaces the claim's plain `keep`: `keep = 0` (or
negative) is coerced to 1 by the code. -/
theorem C7_trim_for_token (table : List ConversationRow) (scope token : String) (keep : Int)
    (hU : PKUnique table) :
    ((rowsForToken (trimConversationsForToken table scope token keep).1 scope token).length : Int)
        ≤ max 1 (jsOrInt keep 1) ∧
    (∀ r, r ∈ rowsForToken (trimConversationsForToken table scope token keep).1 scope token ↔
      r ∈ ((rowsForToken table scope token).mergeSort
            (fun a b => b.updated_at ≤ a.updated_at)).take (max 1 (jsOrInt keep 1)).toNat) ∧
    (trimConversationsForToken table scope token keep).2 =
      table.length - (trimConversationsForToken table scope token keep).1.length := by
  have hF : ∀ x ∈ rowsForToken table scope token, x ∈ table ∧ x.scope = scope ∧ x.token = token := by
    intro x hx
    rw [rowsForToken, List.mem_filter] at hx
    obtain ⟨hmem, hcl⟩ := hx
    simp only [Bool.and_eq_true, decide_eq_true_eq] at hcl
    exact ⟨hmem, hcl.1, hcl.2⟩
  set F := rowsForToken table scope token with hFdef
  set rows := F.mergeSort (fun a b => b.updated_at ≤ a.updated_at) with hrowsdef
  have hperm : rows.Perm F := List.mergeSort_perm F _
  have hFk : (F.map rowKey).Nodup := by
    apply List.Nodup.sublist _ hU
    exact List.Sublist.map rowKey (List.filter_sublist table)
  have hrowsk : (rows.map rowKey).Nodup := ((hperm.map rowKey).nodup_iff).mpr hFk
  set keepC : Int := max 1 (jsOrInt keep 1) with hkeepC
  have hkeepCpos : 0 < keepC := by
    rw [hkeepC]; omega
  have hrowsnd : rows.Nodup := List.Nodup.of_map rowKey hrowsk
  unfold trimConversationsForToken
  rw [show (List.filter (fun r => r.scope = scope && r.token = token) table) = F from rfl]
  rw [← hrowsdef, ← hkeepC]
  dsimp only
  split_ifs with hle
  · dsimp only
    refine ⟨?_, ?_, by omega⟩
    · have h1 : (rowsForToken table scope token).length = rows.length := hperm.length_eq.symm
      omega
    · intro r
      have htake : rows.take keepC.toNat = rows := by
        apply List.take_of_length_le
        omega
      rw [htake]
      rw [hperm.mem_iff]
  · dsimp only
    push_neg at hle
    set stale := rows.drop keepC.toNat with hstale
    have hstsub : ∀ s ∈ stale, s ∈ rows := fun s hs => List.mem_of_mem_drop hs
    have hstF : ∀ s ∈ stale, s ∈ F := fun s hs => hperm.mem_iff.mp (hstsub s hs)
    have hstscope : ∀ s ∈ stale, s.scope = scope := fun s hs => (hF s (hstF s hs)).2.1
    have hsttab : ∀ s ∈ stale, s ∈ table := fun s hs => (hF s (hstF s hs)).1
    have hstk : (stale.map rowKey).Nodup :=
      List.Nodup.sublist (List.Sublist.map rowKey (List.drop_sublist _ _)) hrowsk
    have hpredeq : (fun r => !(stale.any (fun s => matchesPK scope s.openai_conversation_id r)))
        = (fun r => !(stale.any (fun s => decide (rowKey r = rowKey s)))) := by
      funext r
      rw [any_matchesPK_eq scope r stale hstscope]
    rw [hpredeq]
    obtain ⟨hlen, hmem⟩ := filter_out_selected table stale hU hsttab hstk
    have hstlen : stale.length ≤ table.length := by
      have h1 : stale.length ≤ rows.length := by
        rw [hstale]
        simp [List.length_drop]
      have h2 : rows.length = F.length := hperm.length_eq
      have h3 : F.length ≤ table.length := by
        rw [hFdef, rowsForToken]
        exact List.length_filter_le _ _
      omega
    have hmem2 : ∀ r, r ∈ rowsForToken
        (table.filter (fun r => !(stale.any (fun s => decide (rowKey r = rowKey s)))))
        scope token ↔ r ∈ rows.take keepC.toNat := by
      intro r
      rw [rowsForToken, List.mem_filter]
      constructor
      · rintro ⟨hin, hcl⟩
        obtain ⟨hintab, hnotst⟩ := (hmem r).mp hin
        have hrF : r ∈ F := by
          rw [hFdef, rowsForToken, List.mem_filter]
          exact ⟨hintab, hcl⟩
        have hrrows : r ∈ rows := hperm.mem_iff.mpr hrF
        have hsplit : r ∈ rows.take keepC.toNat ++ rows.drop keepC.toNat := by
          rw [List.take_append_drop]
          exact hrrows
        rcases List.mem_append.mp hsplit with h | h
        · exact h
        · exact absurd h hnotst
      · intro htk
        have hrrows : r ∈ rows := List.mem_of_mem_take htk
        have hrF : r ∈ F := hperm.mem_iff.mp hrrows
        have hcl : (decide (r.scope = scope) && decide (r.token = token)) = true := by
          have := hF r hrF
          simp [this.2.1, this.2.2]
        have hnotst : r ∉ stale := by
          intro hdrop
          have hnd2 : (rows.take keepC.toNat ++ rows.drop keepC.toNat).Nodup := by
            rw [List.take_append_drop]; exact hrowsnd
          have hdisj := List.disjoint_of_nodup_append hnd2
          exact hdisj htk hdrop
        refine ⟨(hmem r).mpr ⟨(hF r hrF).1, hnotst⟩, hcl⟩
    refine ⟨?_, hmem2, by omega⟩
    have hnd3 : (rowsForToken
        (table.filter (fun r => !(stale.any (fun s => decide (rowKey r = rowKey s)))))
        scope token).Nodup := by
      apply List.Nodup.sublist _ (List.Nodup.of_map rowKey hU)
      exact List.Sublist.trans (List.filter_sublist _) (List.filter_sublist _)
    have hsub4 : rowsForToken
        (table.filter (fun r => !(stale.any (fun s => decide (rowKey r = rowKey s)))))
        scope token ⊆ rows.take keepC.toNat := fun r hr => (hmem2 r).mp hr
    have hle4 := (List.subperm_of_subset hnd3 hsub4).length_le
    have hle5 : (rows.take keepC.toNat).length ≤ keepC.toNat := by
      simp [List.length_take]
    omega

theorem any_matchesPK_self_eq (r : ConversationRow) :
    ∀ (sel : List ConversationRow),
      (sel.any (fun s => matchesPK s.scope s.openai_conversation_id r)) =
      (sel.any (fun s => decide (rowKey r = rowKey s)))
  | [] => rfl
  | s :: rest => by
      simp only [List.any_cons]
      rw [matchesPK_eq_rowKey s.scope s r rfl, any_matchesPK_self_eq r rest]

/-- C8 (amended): `cleanupExpiredConversations(limit, now)` on a table with
unique primary keys deletes at most `max 1 (min 500 (limit or-100))` rows —
exactly the prefix of the expired rows in ascending `expires_at` order, all
of them expired — and returns the number deleted.  The claim's
`clamp(limit, 1, 500)` is wrong for `limit = 0`, which the code coerces to
the default 100, not to 1. -/
theorem C8_cleanup_expired (table : List ConversationRow) (limit atMs : Int) (hU : PKUnique table) :
    (((cleanupExpiredConversations table limit atMs).2 : Int)
        ≤ max 1 (min 500 (jsOrInt limit 100))) ∧
    ((cleanupExpiredConversations table limit atMs).2 =
      table.length - (cleanupExpiredConversations table limit atMs).1.length) ∧
    (∀ r, r ∈ (cleanupExpiredConversations table limit atMs).1 ↔
      (r ∈ table ∧ r ∉ ((table.filter (fun r => r.expires_at ≤ atMs)).mergeSort
          (fun a b => a.expires_at ≤ b.expires_at)).take
            (max 1 (min 500 (jsOrInt limit 100))).toNat)) ∧
    (∀ r ∈ ((table.filter (fun r => r.expires_at ≤ atMs)).mergeSort
          (fun a b => a.expires_at ≤ b.expires_at)).take
            (max 1 (min 500 (jsOrInt limit 100))).toNat,
      r.expires_at ≤ atMs) := by
  have hexp : ∀ r ∈ ((table.filter (fun r => r.expires_at ≤ atMs)).mergeSort
      (fun a b => a.expires_at ≤ b.expires_at)).take
        (max 1 (min 500 (jsOrInt limit 100))).toNat, r.expires_at ≤ atMs := by
    intro r hr
    have h1 : r ∈ (table.filter (fun r => r.expires_at ≤ atMs)).mergeSort
        (fun a b => a.expires_at ≤ b.expires_at) := List.mem_of_mem_take hr
    have h2 : r ∈ table.filter (fun r => r.expires_at ≤ atMs) :=
      (List.mergeSort_perm _ _).mem_iff.mp h1
    have := (List.mem_filter.mp h2).2
    simpa using this
  set sorted := (table.filter (fun r => r.expires_at ≤ atMs)).mergeSort
      (fun a b => a.expires_at ≤ b.expires_at) with hsorted
  set batch : Int := max 1 (min 500 (jsOrInt limit 100)) with hbatch
  set sel := sorted.take batch.toNat with hsel
  have hperm : sorted.Perm (table.filter (fun r => r.expires_at ≤ atMs)) :=
    List.mergeSort_perm _ _
  have hsortk : (sorted.map rowKey).Nodup := by
    rw [(hperm.map rowKey).nodup_iff]
    exact List.Nodup.sublist (List.Sublist.map rowKey (List.filter_sublist table)) hU
  have hselk : (sel.map rowKey).Nodup :=
    List.Nodup.sublist (List.Sublist.map rowKey (List.take_sublist _ _)) hsortk
  have hseltab : ∀ s ∈ sel, s ∈ table := by
    intro s hs
    exact List.mem_of_mem_filter (α := ConversationRow) (hperm.mem_iff.mp (List.mem_of_mem_take hs))
  have hsellen : sel.length ≤ table.length := by
    have h1 : sel.length ≤ sorted.length := by
      rw [hsel]; simp [List.length_take]
    have h2 : sorted.length = (table.filter (fun r => r.expires_at ≤ atMs)).length :=
      hperm.length_eq
    have h3 := List.length_filter_le (fun r => r.expires_at ≤ atMs) table
    omega
  have hpredeq : (fun r => !(sel.any (fun s => matchesPK s.scope s.openai_conversation_id r)))
      = (fun r => !(sel.any (fun s => decide (rowKey r = rowKey s)))) := by
    funext r
    rw [any_matchesPK_self_eq r sel]
  obtain ⟨hlen, hmem⟩ := filter_out_selected table sel hU hseltab hselk
  unfold cleanupExpiredConversations
  dsimp only
  rw [← hsorted, ← hbatch, ← hsel]
  split_ifs with hz
  · dsimp only
    have hselnil : sel = [] := List.length_eq_zero.mp hz
    refine ⟨by omega, by omega, ?_, hexp⟩
    intro r
    rw [hselnil]
    simp
  · dsimp only
    rw [hpredeq]
    refine ⟨?_, ?_, hmem, hexp⟩
    · have h1 : sel.length ≤ batch.toNat := by
        rw [hsel]; simp [List.length_take]
      have hbpos : (1 : Int) ≤ batch := by rw [hbatch]; omega
      omega
    · omega

/-- C7 counterexample: with `keep = 0` and a one-row cluster, one row
remains after trimming — more than the claimed bound `keep = 0`. -/
theorem C7_counterexample :
    (rowsForToken (trimConversationsForToken [sampleRow1] "s" "t" 0).1 "s" "t").length = 1 ∧
    ¬((1 : Int) ≤ 0) := by
  refine ⟨?_, by norm_num⟩
  have hflt : List.filter (fun r => r.scope = "s" && r.token = "t") [sampleRow1] =
      [sampleRow1] := by decide
  have hms : (List.filter (fun r => r.scope = "s" && r.token = "t")
      [sampleRow1]).mergeSort (fun a b => b.updated_at ≤ a.updated_at) = [sampleRow1] := by
    rw [hflt]
    exact List.mergeSort_singleton sampleRow1
  unfold trimConversationsForToken
  dsimp only
  rw [hms]
  rw [if_pos (by norm_num [jsOrInt])]
  decide

/-- C7 witness: the trim facts at a concrete one-row table with
`keep = 2`. -/
theorem C7_witness :
    ((rowsForToken (trimConversationsForToken [sampleRow1] "s" "t" 2).1 "s" "t").length : Int)
        ≤ max 1 (jsOrInt 2 1) ∧
    (∀ r, r ∈ rowsForToken (trimConversationsForToken [sampleRow1] "s" "t" 2).1 "s" "t" ↔
      r ∈ ((rowsForToken [sampleRow1] "s" "t").mergeSort
            (fun a b => b.updated_at ≤ a.updated_at)).take (max 1 (jsOrInt 2 1)).toNat) ∧
    (trimConversationsForToken [sampleRow1] "s" "t" 2).2 =
      [sampleRow1].length - (trimConversationsForToken [sampleRow1] "s" "t" 2).1.length :=
  C7_trim_for_token [sampleRow1] "s" "t" 2 (by unfold PKUnique; decide)

/-- C8 counterexample: with `limit = 0` and two expired rows the code
deletes 2 rows, exceeding the claimed bound `clamp(0, 1, 500) = 1`. -/
theorem C8_counterexample :
    (cleanupExpiredConversations [sampleRow1, sampleRow2] 0 100).2 = 2 ∧
    ¬(((cleanupExpiredConversations [sampleRow1, sampleRow2] 0 100).2 : Int)
        ≤ max 1 (min 500 (0 : Int))) := by
  have hflt : List.filter (fun r => r.expires_at ≤ (100 : Int)) [sampleRow1, sampleRow2] =
      [sampleRow1, sampleRow2] := by decide
  have hms : (List.filter (fun r => r.expires_at ≤ (100 : Int))
      [sampleRow1, sampleRow2]).mergeSort (fun a b => a.expires_at ≤ b.expires_at) =
      [sampleRow1, sampleRow2] := by
    rw [hflt]
    exact List.mergeSort_of_sorted (by decide)
  have hval : (cleanupExpiredConversations [sampleRow1, sampleRow2] 0 100).2 = 2 := by
    unfold cleanupExpiredConversations
    dsimp only
    rw [hms]
    rw [show (max 1 (min 500 (jsOrInt 0 100))).toNat = 100 from by decide]
    decide
  refine ⟨hval, ?_⟩
  rw [hval]
  norm_num

/-- C8 witness: the cleanup facts at a concrete one-row table with
`limit = 3`, `now = 100`. -/
theorem C8_witness :
    (((cleanupExpiredConversations [sampleRow1] 3 100).2 : Int)
        ≤ max 1 (min 500 (jsOrInt 3 100))) ∧
    ((cleanupExpiredConversations [sampleRow1] 3 100).2 =
      [sampleRow1].length - (cleanupExpiredConversations [sampleRow1] 3 100).1.length) ∧
    (∀ r, r ∈ (cleanupExpiredConversations [sampleRow1] 3 100).1 ↔
      (r ∈ [sampleRow1] ∧ r ∉ (([sampleRow1].filter (fun r => r.expires_at ≤ 100)).mergeSort
          (fun a b => a.expires_at ≤ b.expires_at)).take
            (max 1 (min 500 (jsOrInt 3 100))).toNat)) ∧
    (∀ r ∈ (([sampleRow1].filter (fun r => r.expires_at ≤ 100)).mergeSort
          (fun a b => a.expires_at ≤ b.expires_at)).take
            (max 1 (min 500 (jsOrInt 3 100))).toNat,
      r.expires_at ≤ 100) :=
  C8_cleanup_expired [sampleRow1] 3 100 (by unfold PKUnique; decide)

/-- C10: `upsertConversation` on an existing `(scope,
openai_conversation_id)` row keeps the table size, leaves `created_at` and
the primary-key fields unchanged while replacing `grok_conversation_id`,
`last_response_id`, `share_link_id`, `token`, `history_hash`, `updated_at`
and `expires_at` with the new values, and leaves rows with other primary
keys unchanged. -/
theorem C10_upsert_preserves_created_at (nowMs : Int) (table : List ConversationRow)
    (input : UpsertConversationInput) (old : ConversationRow) (hmem : old ∈ table)
    (hpk : matchesPK input.scope input.openai_conversation_id old = true) :
    (upsertConversation nowMs table input).length = table.length ∧
    ({ old with
        grok_conversation_id := input.grok_conversation_id
        last_response_id := input.last_response_id
        share_link_id := trimS (input.share_link_id.getD "")
        token := input.token
        history_hash := trimS (input.history_hash.getD "")
        updated_at := input.updated_at.getD nowMs
        expires_at := input.expires_at } ∈ upsertConversation nowMs table input) ∧
    (∀ r ∈ table, matchesPK input.scope input.openai_conversation_id r = false →
      r ∈ upsertConversation nowMs table input) := by
  have hany : table.any (matchesPK input.scope input.openai_conversation_id) = true :=
    List.any_eq_true.mpr ⟨old, hmem, hpk⟩
  unfold upsertConversation
  dsimp only
  rw [if_pos hany]
  refine ⟨List.length_map _ _, ?_, ?_⟩
  · apply List.mem_map.mpr
    refine ⟨old, hmem, ?_⟩
    rw [if_pos hpk]
  · intro r hr hneg
    apply List.mem_map.mpr
    refine ⟨r, hr, ?_⟩
    rw [if_neg (by rw [hneg]; exact Bool.false_ne_true)]

/-- C10 witness: the upsert facts at a concrete one-row table. -/
theorem C10_witness :
    (upsertConversation 50 [sampleRow1]
        { scope := "s", openai_conversation_id := "c1", grok_conversation_id := "G",
          last_response_id := "L", share_link_id := some " S ", token := "T",
          history_hash := some "H", created_at := some 7, updated_at := some 8,
          expires_at := 9 }).length = [sampleRow1].length ∧
    ({ sampleRow1 with
        grok_conversation_id := "G"
        last_response_id := "L"
        share_link_id := trimS ((some " S " : Option String).getD "")
        token := "T"
        history_hash := trimS ((some "H" : Option String).getD "")
        updated_at := (some (8 : Int) : Option Int).getD 50
        expires_at := 9 } ∈ upsertConversation 50 [sampleRow1]
        { scope := "s", openai_conversation_id := "c1", grok_conversation_id := "G",
          last_response_id := "L", share_link_id := some " S ", token := "T",
          history_hash := some "H", created_at := some 7, updated_at := some 8,
          expires_at := 9 }) ∧
    (∀ r ∈ [sampleRow1], matchesPK "s" "c1" r = false →
      r ∈ upsertConversation 50 [sampleRow1]
        { scope := "s", openai_conversation_id := "c1", grok_conversation_id := "G",
          last_response_id := "L", share_link_id := some " S ", token := "T",
          history_hash := some "H", created_at := some 7, updated_at := some 8,
          expires_at := 9 }) :=
  C10_upsert_preserves_created_at 50 [sampleRow1] _ sampleRow1 (List.mem_singleton.mpr rfl) (by decide)

/-! ### C4 — timeout machine -/

/-- C4 (amended): in the stream loop's timeout machine, `totalTimeout = 0`
is disabled — the loop terminates only via the first/chunk bounds and the
per-read timeout ignores the total bound — but `firstTimeout = 0` and
`chunkTimeout = 0` are *not* disabled: any positive elapsed (resp. idle)
time trips them, and `readWithTimeout` resolves to an immediate timeout
whenever the effective per-read timeout is ≤ 0. -/
theorem C4_timeout_semantics :
    (∀ (t : StreamTimeouts) (firstReceived : Bool) (elapsed idle : Int),
        t.totalTimeoutMs = 0 →
        (loopGate t firstReceived elapsed idle = .terminate ↔
          ((firstReceived = false ∧ elapsed > t.firstTimeoutMs) ∨
           (firstReceived = true ∧ idle > t.chunkTimeoutMs))) ∧
        perReadTimeout t firstReceived elapsed =
          (if firstReceived then t.chunkTimeoutMs else t.firstTimeoutMs)) ∧
    (∀ (t : StreamTimeouts) (elapsed idle : Int),
        t.firstTimeoutMs = 0 → 0 < elapsed →
        loopGate t false elapsed idle = .terminate) ∧
    (∀ (t : StreamTimeouts) (elapsed idle : Int),
        t.chunkTimeoutMs = 0 → 0 < idle →
        loopGate t true elapsed idle = .terminate) ∧
    (∀ (ms : Int) (race : ReadOutcome), ms ≤ 0 → readWithTimeout ms race = .timeout) := by
  refine ⟨?_, ?_, ?_, ?_⟩
  · intro t firstReceived elapsed idle htot
    constructor
    · unfold loopGate perReadTimeout
      rw [htot]
      cases firstReceived <;> simp
    · unfold perReadTimeout
      rw [htot]
      simp
  · intro t elapsed idle hfirst helapsed
    unfold loopGate
    rw [if_pos (by simp [hfirst]; omega)]
  · intro t elapsed idle hchunk hidle
    unfold loopGate
    rw [if_neg (by simp)]
    by_cases htot : t.totalTimeoutMs > 0 ∧ elapsed > t.totalTimeoutMs
    · rw [if_pos (by simp [htot.1, htot.2])]
    · rw [if_neg (by simpa using htot)]
      rw [if_pos (by simp [hchunk]; omega)]
  · intro ms race hms
    unfold readWithTimeout
    rw [if_pos hms]

/-- C4 witness: the zero first-byte bound trips at a concrete elapsed time
of 2 ms. -/
theorem C4_witness :
    loopGate { firstTimeoutMs := 0, chunkTimeoutMs := 7, totalTimeoutMs := 9 } false 2 0 =
      .terminate :=
  C4_timeout_semantics.2.1 { firstTimeoutMs := 0, chunkTimeoutMs := 7, totalTimeoutMs := 9 }
    2 0 rfl (by norm_num)

/-- C4 counterexample: a first-byte bound configured as 0 terminates the
stream after 1 ms, and a chunk bound configured as 0 makes the very next
read time out — 0 is not treated as infinite for these two bounds. -/
theorem C4_counterexample :
    loopGate { firstTimeoutMs := 0, chunkTimeoutMs := 120000, totalTimeoutMs := 600000 }
      false 1 0 = .terminate ∧
    readWithTimeout (perReadTimeout
      { firstTimeoutMs := 30000, chunkTimeoutMs := 0, totalTimeoutMs := 600000 } true 5)
      (.value [1]) = .timeout := by
  constructor
  · decide
  · decide


theorem countDone_nil : countDone [] = 0 := rfl

theorem countDone_append (a b : List Frame) : countDone (a ++ b) = countDone a + countDone b :=
  List.countP_append _ _ _

theorem countDone_chunk (m : List Char) (ps : List Piece) (fin : Option FinishReason) :
    countDone [Frame.chunk m ps fin] = 0 := by
  simp [countDone]

theorem countDone_emitTextDelta (cfg : StreamConfig) (st : StreamState) (text : List Char)
    (lines : List (List Char)) (thinking : Bool) (tag : Option (List Char)) :
    countDone (emitTextDelta cfg st text lines thinking tag).2 = 0 := by
  unfold emitTextDelta
  dsimp only
  split_ifs <;> simp [countDone]

theorem countDone_flushToolBuffer (cfg : StreamConfig) (st : StreamState) (b : Bool) :
    countDone (flushToolBuffer cfg st b).2 = 0 := by
  unfold flushToolBuffer
  dsimp only
  split_ifs with h
  · simp [countDone]
  · exact countDone_emitTextDelta cfg _ _ _ b none

theorem countDone_closeThinkWrappers (cfg : StreamConfig) (st : StreamState) :
    countDone (closeThinkWrappers cfg st).2 = 0 := by
  unfold closeThinkWrappers
  dsimp only
  split_ifs <;> simp [countDone]

theorem flushStop_done (cfg : StreamConfig) (st : StreamState) :
    countDone (flushStop cfg st).2 = 1 ∧
    (flushStop cfg st).2.getLast? = some Frame.done := by
  unfold flushStop
  dsimp only
  constructor
  · rw [countDone_append, countDone_append, countDone_flushToolBuffer,
      countDone_closeThinkWrappers]
    simp [countDone]
  · rw [List.getLast?_append, List.getLast?_append]
    simp

theorem countDone_processVideo (cfg : StreamConfig) (st : StreamState)
    (v : VideoRespView) :
    (processVideo cfg st v).2.2 = false ∧ countDone (processVideo cfg st v).2.1 = 0 := by
  unfold processVideo
  dsimp only
  split_ifs <;> simp [countDone]

theorem countDone_processImage (cfg : StreamConfig) (st : StreamState)
    (grok : GrokResponseView) :
    ((processImage cfg st grok).2.2 = false ∧ countDone (processImage cfg st grok).2.1 = 0) ∨
    ((processImage cfg st grok).2.2 = true ∧ countDone (processImage cfg st grok).2.1 = 1 ∧
      (processImage cfg st grok).2.1.getLast? = some Frame.done) := by
  unfold processImage
  rcases grok.modelResponse with _ | modelResp
  · rcases grok.token with _ | tok
    · left; exact ⟨rfl, rfl⟩
    · dsimp only
      split_ifs
      · left
        exact ⟨rfl, by simp [countDone]⟩
      · left; exact ⟨rfl, rfl⟩
  · dsimp only
    split_ifs
    · right
      refine ⟨rfl, ?_, ?_⟩
      · rw [countDone_append, countDone_append, countDone_chunk,
          countDone_closeThinkWrappers]
        simp [countDone]
      · rw [List.getLast?_append, List.getLast?_append]
        simp
    · left; exact ⟨rfl, rfl⟩

theorem countDone_processText (cfg : StreamConfig) (st : StreamState)
    (grok : GrokResponseView) :
    (processText cfg st grok).2.2 = false ∧ countDone (processText cfg st grok).2.1 = 0 := by
  unfold processText
  dsimp only
  exact ⟨rfl, countDone_emitTextDelta cfg _ _ _ _ _⟩

theorem countDone_processGrok (cfg : StreamConfig) (st : StreamState)
    (grok : GrokResponseView) :
    ((processGrok cfg st grok).2.2 = false ∧ countDone (processGrok cfg st grok).2.1 = 0) ∨
    ((processGrok cfg st grok).2.2 = true ∧ countDone (processGrok cfg st grok).2.1 = 1 ∧
      (processGrok cfg st grok).2.1.getLast? = some Frame.done) := by
  unfold processGrok
  dsimp only
  rcases grok.streamingVideoGenerationResponse with _ | v
  · dsimp only
    split_ifs
    all_goals first
      | exact countDone_processImage cfg _ grok
      | (left; exact countDone_processText cfg _ grok)
  · left; exact countDone_processVideo cfg _ v

theorem countDone_processLine (cfg : StreamConfig) (st : StreamState)
    (l : Option NdjsonLineView) :
    ((processLine cfg st l).2.2 = false ∧ countDone (processLine cfg st l).2.1 = 0) ∨
    ((processLine cfg st l).2.2 = true ∧ countDone (processLine cfg st l).2.1 = 1 ∧
      (processLine cfg st l).2.1.getLast? = some Frame.done) := by
  unfold processLine
  rcases l with _ | data
  · left; exact ⟨rfl, rfl⟩
  · dsimp only
    rcases data.errorMessage with _ | msg
    · rcases data.response with _ | grok
      · left; exact ⟨rfl, rfl⟩
      · exact countDone_processGrok cfg st grok
    · right
      dsimp only
      refine ⟨rfl, ?_, ?_⟩
      · rw [countDone_append, countDone_append, countDone_flushToolBuffer,
          countDone_closeThinkWrappers]
        simp [countDone]
      · rw [List.getLast?_append, List.getLast?_append]
        simp

theorem runStream_done (cfg : StreamConfig) (events : List StreamEvent) (st : StreamState) :
    countDone (runStream cfg events st).1 = 1 ∧
    (runStream cfg events st).1.getLast? = some Frame.done := by
  induction events generalizing st with
  | nil =>
      simp only [runStream]
      exact flushStop_done cfg st
  | cons e rest ih =>
      cases e with
      | timeout =>
          simp only [runStream]
          exact flushStop_done cfg st
      | exn msg =>
          simp only [runStream]
          constructor
          · rw [countDone_append, countDone_append, countDone_flushToolBuffer,
              countDone_closeThinkWrappers]
            simp [countDone]
          · rw [List.getLast?_append, List.getLast?_append]
            simp
      | line l =>
          simp only [runStream]
          rcases hpl : processLine cfg st l with ⟨st', fs, term⟩
          rcases countDone_processLine cfg st l with ⟨hterm, hcnt⟩ | ⟨hterm, hcnt, hlast⟩
          · rw [hpl] at hterm hcnt
            dsimp only at hterm hcnt
            subst hterm
            dsimp only
            rw [if_neg (by simp)]
            rcases hrun : runStream cfg rest st' with ⟨fs', n⟩
            have hih := ih st'
            rw [hrun] at hih
            dsimp only at hih
            dsimp only
            refine ⟨?_, ?_⟩
            · rw [countDone_append, hcnt, hih.1]
            · rw [List.getLast?_append, hih.2]
              rfl
          · rw [hpl] at hterm hcnt hlast
            dsimp only at hterm hcnt hlast
            subst hterm
            dsimp only
            rw [if_pos rfl]
            exact ⟨hcnt, hlast⟩

theorem runStream_finish_once (cfg : StreamConfig) (events : List StreamEvent)
    (st : StreamState) : (runStream cfg events st).2 = 1 := by
  induction events generalizing st with
  | nil => rfl
  | cons e rest ih =>
      cases e with
      | timeout => rfl
      | exn msg => rfl
      | line l =>
          simp only [runStream]
          rcases hpl : processLine cfg st l with ⟨st', fs, term⟩
          dsimp only
          cases term
          · rw [if_neg (by simp)]
            rcases hrun : runStream cfg rest st' with ⟨fs', n⟩
            have h := ih st'
            rw [hrun] at h
            exact h
          · rw [if_pos rfl]

theorem opensCount_append (a b : List Frame) :
    opensCount (a ++ b) = opensCount a + opensCount b := by
  simp [opensCount]

theorem closesCount_append (a b : List Frame) :
    closesCount (a ++ b) = closesCount a + closesCount b := by
  simp [closesCount]

theorem pieceOpens_textComp (lines : List (List Char)) :
    (lines.map (pieceOpens ∘ fun line => Piece.text (line ++ ['\n']))).sum = 0 := by
  induction lines <;> simp_all [pieceOpens]

theorem pieceCloses_textComp (lines : List (List Char)) :
    (lines.map (pieceCloses ∘ fun line => Piece.text (line ++ ['\n']))).sum = 0 := by
  induction lines <;> simp_all [pieceCloses]

theorem pieceOpens_textList (ls : List (List Char)) :
    ((ls.map (fun line => Piece.text (line ++ ['\n']))).map pieceOpens).sum = 0 := by
  induction ls <;> simp_all [pieceOpens]

theorem pieceCloses_textList (ls : List (List Char)) :
    ((ls.map (fun line => Piece.text (line ++ ['\n']))).map pieceCloses).sum = 0 := by
  induction ls <;> simp_all [pieceCloses]

theorem pieceOpens_text (s : List Char) : pieceOpens (Piece.text s) = 0 := rfl

theorem pieceCloses_text (s : List Char) : pieceCloses (Piece.text s) = 0 := rfl

theorem bal_emitTextDelta (cfg : StreamConfig) (st : StreamState) (text : List Char)
    (lines : List (List Char)) (thinking : Bool) (tag : Option (List Char)) :
    opensCount (emitTextDelta cfg st text lines thinking tag).2 + thinkBal st =
      closesCount (emitTextDelta cfg st text lines thinking tag).2 +
        thinkBal (emitTextDelta cfg st text lines thinking tag).1 ∧
    (emitTextDelta cfg st text lines thinking tag).1.videoProgressStarted =
      st.videoProgressStarted ∧
    (BalInv cfg st → BalInv cfg (emitTextDelta cfg st text lines thinking tag).1) := by
  refine ⟨?_, by rfl, ?_⟩
  · unfold emitTextDelta
    dsimp only
    by_cases hshow : cfg.showThinking = true
    · rw [if_pos hshow]
      by_cases hopen : (thinking && !st.thinkTagOpen) = true
      · rw [if_pos hopen]
        have hop := hopen
        simp only [Bool.and_eq_true, Bool.not_eq_true'] at hop
        rw [if_pos (by
          simp only [List.singleton_append, List.map_cons, List.flatten_cons, renderPiece]
          exact List.append_ne_nil_of_left_ne_nil (by decide) _)]
        split_ifs <;>
          (simp [opensCount, closesCount, frameOpens, frameCloses, thinkBal,
            pieceOpens_textList, pieceCloses_textList, pieceOpens_textComp, pieceCloses_textComp, pieceOpens_text, pieceCloses_text,
            pieceOpens, pieceCloses, hop.2])
      · rw [if_neg hopen]
        by_cases hclose : (!thinking && st.thinkTagOpen) = true
        · rw [if_pos hclose]
          have hcl := hclose
          simp only [Bool.and_eq_true, Bool.not_eq_true'] at hcl
          rw [if_pos (by
            simp only [List.singleton_append, List.map_cons, List.flatten_cons, renderPiece]
            exact List.append_ne_nil_of_left_ne_nil (by decide) _)]
          split_ifs <;>
            (simp [opensCount, closesCount, frameOpens, frameCloses, thinkBal,
              pieceOpens_textList, pieceCloses_textList, pieceOpens_textComp, pieceCloses_textComp, pieceOpens_text, pieceCloses_text,
              pieceOpens, pieceCloses, hcl.2])
        · rw [if_neg hclose]
          split_ifs <;>
            simp [opensCount, closesCount, frameOpens, frameCloses, thinkBal,
              pieceOpens_textList, pieceCloses_textList, pieceOpens_textComp, pieceCloses_textComp, pieceOpens_text, pieceCloses_text,
              pieceOpens, pieceCloses]
    · rw [if_neg hshow]
      split_ifs <;>
        simp [opensCount, closesCount, frameOpens, frameCloses, thinkBal,
          pieceOpens_textList, pieceCloses_textList, pieceOpens_textComp, pieceCloses_textComp, pieceOpens_text, pieceCloses_text,
          pieceOpens, pieceCloses]
  · intro hb
    unfold emitTextDelta BalInv
    dsimp only
    intro hf
    simp only [hf, Bool.false_eq_true, if_false]
    exact hb hf

theorem opensCount_stopTail (m : List Char) (fin : Option FinishReason) :
    opensCount [Frame.chunk m [] fin, Frame.done] = 0 := by
  simp [opensCount, frameOpens]

theorem closesCount_stopTail (m : List Char) (fin : Option FinishReason) :
    closesCount [Frame.chunk m [] fin, Frame.done] = 0 := by
  simp [closesCount, frameCloses]

theorem opensCount_textTail (m s : List Char) (fin : Option FinishReason) :
    opensCount [Frame.chunk m [Piece.text s] fin, Frame.done] = 0 := by
  simp [opensCount, frameOpens, pieceOpens]

theorem closesCount_textTail (m s : List Char) (fin : Option FinishReason) :
    closesCount [Frame.chunk m [Piece.text s] fin, Frame.done] = 0 := by
  simp [closesCount, frameCloses, pieceCloses]

theorem bal_flushToolBuffer (cfg : StreamConfig) (st : StreamState) (thinking : Bool) :
    opensCount (flushToolBuffer cfg st thinking).2 + thinkBal st =
      closesCount (flushToolBuffer cfg st thinking).2 +
        thinkBal (flushToolBuffer cfg st thinking).1 ∧
    (BalInv cfg st → BalInv cfg (flushToolBuffer cfg st thinking).1) := by
  unfold flushToolBuffer
  dsimp only
  split_ifs with h
  · exact ⟨by simp [opensCount, closesCount, thinkBal], fun hb => hb⟩
  · exact ⟨(bal_emitTextDelta cfg _ _ _ _ _).1,
      fun hb => (bal_emitTextDelta cfg _ _ _ _ _).2.2 hb⟩

theorem bal_closeThinkWrappers (cfg : StreamConfig) (st : StreamState) :
    opensCount (closeThinkWrappers cfg st).2 + thinkBal st =
      closesCount (closeThinkWrappers cfg st).2 +
        thinkBal (closeThinkWrappers cfg st).1 ∧
    (BalInv cfg st → thinkBal (closeThinkWrappers cfg st).1 = 0) := by
  unfold closeThinkWrappers
  dsimp only
  split_ifs <;>
      simp_all [opensCount, closesCount, frameOpens, frameCloses, pieceOpens, pieceCloses,
        thinkBal, BalInv] <;>
    (try omega) <;>
    (intro hb
     rcases Bool.eq_false_or_eq_true cfg.showThinking with hs | hs
     · exact ⟨by simp_all, by simp_all⟩
     · exact hb hs)

theorem bal_flushStop (cfg : StreamConfig) (st : StreamState) (hb : BalInv cfg st) :
    opensCount (flushStop cfg st).2 + thinkBal st = closesCount (flushStop cfg st).2 := by
  unfold flushStop
  dsimp only
  obtain ⟨h1, h3⟩ := bal_flushToolBuffer cfg st st.lastIsThinking
  obtain ⟨h4, h5⟩ := bal_closeThinkWrappers cfg (flushToolBuffer cfg st st.lastIsThinking).1
  have h6 := h5 (h3 hb)
  rw [opensCount_append, opensCount_append, closesCount_append, closesCount_append,
    opensCount_stopTail, closesCount_stopTail]
  omega

theorem bal_processVideo (cfg : StreamConfig) (st : StreamState) (v : VideoRespView) :
    opensCount (processVideo cfg st v).2.1 + thinkBal st =
      closesCount (processVideo cfg st v).2.1 + thinkBal (processVideo cfg st v).1 ∧
    (BalInv cfg st → BalInv cfg (processVideo cfg st v).1) := by
  unfold processVideo
  dsimp only
  split_ifs <;>
    simp_all [opensCount, closesCount, frameOpens, frameCloses, pieceOpens, pieceCloses,
      thinkBal, BalInv, opensCount_append, closesCount_append] <;> omega

theorem opensCount_textChunk (m s : List Char) (fin : Option FinishReason) :
    opensCount [Frame.chunk m [Piece.text s] fin] = 0 := by
  simp [opensCount, frameOpens, pieceOpens]

theorem closesCount_textChunk (m s : List Char) (fin : Option FinishReason) :
    closesCount [Frame.chunk m [Piece.text s] fin] = 0 := by
  simp [closesCount, frameCloses, pieceCloses]

theorem opensCount_doneOnly : opensCount [Frame.done] = 0 := rfl

theorem closesCount_doneOnly : closesCount [Frame.done] = 0 := rfl

theorem bal_processImage (cfg : StreamConfig) (st : StreamState) (grok : GrokResponseView) :
    ((processImage cfg st grok).2.2 = false →
      opensCount (processImage cfg st grok).2.1 + thinkBal st =
        closesCount (processImage cfg st grok).2.1 +
          thinkBal (processImage cfg st grok).1 ∧
      (BalInv cfg st → BalInv cfg (processImage cfg st grok).1)) ∧
    ((processImage cfg st grok).2.2 = true → BalInv cfg st →
      opensCount (processImage cfg st grok).2.1 + thinkBal st =
        closesCount (processImage cfg st grok).2.1) := by
  unfold processImage
  rcases grok.modelResponse with _ | modelResp
  · rcases grok.token with _ | tok
    · exact ⟨fun _ => ⟨rfl, fun hb => hb⟩, fun h => nomatch h⟩
    · dsimp only
      split_ifs
      · refine ⟨fun _ => ⟨?_, fun hb => hb⟩, fun h => nomatch h⟩
        simp [opensCount, closesCount, frameOpens, frameCloses, pieceOpens, pieceCloses]
      · exact ⟨fun _ => ⟨rfl, fun hb => hb⟩, fun h => nomatch h⟩
  · dsimp only
    split_ifs
    · constructor
      · intro h
        exact absurd h (by simp)
      intro _ hb
      obtain ⟨h4, h5⟩ := bal_closeThinkWrappers cfg st
      have h6 := h5 hb
      rw [List.append_assoc, opensCount_append, opensCount_append, closesCount_append,
        closesCount_append, opensCount_textChunk, closesCount_textChunk,
        opensCount_doneOnly, closesCount_doneOnly]
      omega
    · exact ⟨fun _ => ⟨rfl, fun hb => hb⟩, fun h => nomatch h⟩

theorem updateModel_preserves (cfg : StreamConfig) (grok : GrokResponseView)
    (st : StreamState) :
    thinkBal (updateModelFromUserResponse grok st) = thinkBal st ∧
    (BalInv cfg st → BalInv cfg (updateModelFromUserResponse grok st)) ∧
    (updateModelFromUserResponse grok st).isImage = st.isImage := by
  unfold updateModelFromUserResponse
  rcases grok.userResponseModel with _ | m
  · exact ⟨rfl, fun hb => hb, rfl⟩
  · dsimp only
    split_ifs
    · exact ⟨rfl, fun hb => hb, rfl⟩
    · exact ⟨rfl, fun hb => hb, rfl⟩

theorem bal_processText (cfg : StreamConfig) (st : StreamState) (grok : GrokResponseView) :
    opensCount (processText cfg st grok).2.1 + thinkBal st =
      closesCount (processText cfg st grok).2.1 + thinkBal (processText cfg st grok).1 ∧
    (BalInv cfg st → BalInv cfg (processText cfg st grok).1) := by
  unfold processText
  dsimp only
  split_ifs <;>
    exact ⟨(bal_emitTextDelta cfg _ _ _ _ _).1,
      fun hb => (bal_emitTextDelta cfg _ _ _ _ _).2.2 hb⟩

theorem bal_processGrok (cfg : StreamConfig) (st0 : StreamState) (grok : GrokResponseView) :
    ((processGrok cfg st0 grok).2.2 = false →
      opensCount (processGrok cfg st0 grok).2.1 + thinkBal st0 =
        closesCount (processGrok cfg st0 grok).2.1 +
          thinkBal (processGrok cfg st0 grok).1 ∧
      (BalInv cfg st0 → BalInv cfg (processGrok cfg st0 grok).1)) ∧
    ((processGrok cfg st0 grok).2.2 = true → BalInv cfg st0 →
      opensCount (processGrok cfg st0 grok).2.1 + thinkBal st0 =
        closesCount (processGrok cfg st0 grok).2.1) := by
  obtain ⟨hu1, hu2, _⟩ := updateModel_preserves cfg grok st0
  unfold processGrok
  dsimp only
  rcases grok.streamingVideoGenerationResponse with _ | v
  · dsimp only
    split_ifs
    all_goals first
      | exact ⟨fun h =>
            ⟨by rw [← hu1]; exact ((bal_processImage cfg _ grok).1 h).1,
             fun hb => ((bal_processImage cfg _ grok).1 h).2 (hu2 hb)⟩,
          fun h hb => by rw [← hu1]; exact (bal_processImage cfg _ grok).2 h (hu2 hb)⟩
      | exact ⟨fun _ =>
            ⟨by rw [← hu1]; exact (bal_processText cfg _ grok).1,
             fun hb => (bal_processText cfg _ grok).2 (hu2 hb)⟩,
          fun h => by rw [(countDone_processText cfg _ grok).1] at h; simp at h⟩
  · obtain ⟨hv1, hv2⟩ := bal_processVideo cfg (updateModelFromUserResponse grok st0) v
    refine ⟨fun _ => ⟨?_, fun hb => hv2 (hu2 hb)⟩, fun h => ?_⟩
    · rw [← hu1]; exact hv1
    · rw [(countDone_processVideo cfg _ v).1] at h
      simp at h

theorem bal_processLine (cfg : StreamConfig) (st : StreamState)
    (l : Option NdjsonLineView) :
    ((processLine cfg st l).2.2 = false →
      opensCount (processLine cfg st l).2.1 + thinkBal st =
        closesCount (processLine cfg st l).2.1 + thinkBal (processLine cfg st l).1 ∧
      (BalInv cfg st → BalInv cfg (processLine cfg st l).1)) ∧
    ((processLine cfg st l).2.2 = true → BalInv cfg st →
      opensCount (processLine cfg st l).2.1 + thinkBal st =
        closesCount (processLine cfg st l).2.1) := by
  unfold processLine
  rcases l with _ | data
  · exact ⟨fun _ => ⟨rfl, fun hb => hb⟩, fun h => by simp at h⟩
  · dsimp only
    rcases data.errorMessage with _ | msg
    · rcases data.response with _ | grok
      · exact ⟨fun _ => ⟨rfl, fun hb => hb⟩, fun h => by simp at h⟩
      · exact bal_processGrok cfg st grok
    · dsimp only
      refine ⟨fun h => by simp at h, fun _ hb => ?_⟩
      obtain ⟨h1, h3⟩ := bal_flushToolBuffer cfg st st.lastIsThinking
      obtain ⟨h4, h5⟩ := bal_closeThinkWrappers cfg (flushToolBuffer cfg st st.lastIsThinking).1
      have h6 := h5 (h3 hb)
      rw [opensCount_append, opensCount_append, closesCount_append, closesCount_append,
        opensCount_textTail, closesCount_textTail]
      omega

theorem bal_runStream (cfg : StreamConfig) (events : List StreamEvent) (st : StreamState)
    (hb : BalInv cfg st) :
    opensCount (runStream cfg events st).1 + thinkBal st =
      closesCount (runStream cfg events st).1 := by
  induction events generalizing st with
  | nil =>
      simp only [runStream]
      exact bal_flushStop cfg st hb
  | cons e rest ih =>
      cases e with
      | timeout =>
          simp only [runStream]
          exact bal_flushStop cfg st hb
      | exn msg =>
          simp only [runStream]
          obtain ⟨h1, h3⟩ := bal_flushToolBuffer cfg st st.lastIsThinking
          obtain ⟨h4, h5⟩ :=
            bal_closeThinkWrappers cfg (flushToolBuffer cfg st st.lastIsThinking).1
          have h6 := h5 (h3 hb)
          rw [opensCount_append, opensCount_append, closesCount_append, closesCount_append,
            opensCount_textTail, closesCount_textTail]
          omega
      | line l =>
          simp only [runStream]
          rcases hpl : processLine cfg st l with ⟨st', fs, term⟩
          have hbl := bal_processLine cfg st l
          rw [hpl] at hbl
          dsimp only at hbl
          cases term with
          | false =>
              dsimp only
              rw [if_neg (by simp)]
              rcases hrun : runStream cfg rest st' with ⟨fs', n⟩
              obtain ⟨heq, hpres⟩ := hbl.1 rfl
              have hih := ih st' (hpres hb)
              rw [hrun] at hih
              dsimp only at hih
              dsimp only
              rw [opensCount_append, closesCount_append]
              omega
          | true =>
              dsimp only
              rw [if_pos rfl]
              exact hbl.2 rfl hb

/-- C1: for every upstream NDJSON event trace and every termination path of the
streaming transformer (normal end-of-stream, upstream error frame, image
terminal, timeout trip, internal exception, and the null-body short-circuit),
the output of `createOpenAiStreamFromGrokNdjson` contains exactly one
`data: [DONE]` frame, and that frame is the last frame emitted. -/
theorem C1_done_exactly_once (cfg : StreamConfig) (body : Option (List StreamEvent)) :
    countDone (createOpenAiStreamFromGrokNdjson cfg body).1 = 1 ∧
    (createOpenAiStreamFromGrokNdjson cfg body).1.getLast? = some Frame.done := by
  cases body with
  | none => exact ⟨rfl, rfl⟩
  | some events => exact runStream_done cfg events initialStreamState

/-- C3: for every stream processed by `createOpenAiStreamFromGrokNdjson`, the
number of `<think>` opening tokens emitted equals the number of `</think>`
closing tokens emitted, counting the video-progress `<think>` block as one
pair too (the `videoOpen` piece opens and `videoClose`/`videoCloseBare`
close); in particular a still-open video-progress think block is closed
before the stream ends. -/
theorem C3_think_token_balance (cfg : StreamConfig) (body : Option (List StreamEvent)) :
    opensCount (createOpenAiStreamFromGrokNdjson cfg body).1 =
      closesCount (createOpenAiStreamFromGrokNdjson cfg body).1 := by
  cases body with
  | none => rfl
  | some events =>
      simp only [createOpenAiStreamFromGrokNdjson]
      have h := bal_runStream cfg events initialStreamState (fun _ => ⟨rfl, rfl⟩)
      have h0 : thinkBal initialStreamState = 0 := rfl
      omega

/-- C9: a null upstream body makes the stream emit exactly one content chunk
with content `"Empty response"` and finish reason `error` followed by
`data: [DONE]`, with the `onFinish` callback never invoked (finish count 0);
every other path invokes `onFinish` exactly once. -/
theorem C9_null_body_short_circuit (cfg : StreamConfig) :
    createOpenAiStreamFromGrokNdjson cfg none =
      ([Frame.chunk "grok-4-mini-thinking-tahoe".toList
          [Piece.text "Empty response".toList] (some FinishReason.error),
        Frame.done], 0) ∧
    ∀ (events : List StreamEvent),
      (createOpenAiStreamFromGrokNdjson cfg (some events)).2 = 1 :=
  ⟨rfl, fun events => runStream_finish_once cfg events initialStreamState⟩


theorem firstIdxOfAux_isSome (pat : List Char) :
    ∀ (l : List Char) (i : Nat),
      (firstIdxOfAux pat l i).isSome = true ↔ pat <:+: l := by
  intro l
  induction l with
  | nil =>
      intro i
      unfold firstIdxOfAux
      split_ifs with h
      · simp only [Option.isSome_some, true_iff]
        exact (List.isPrefixOf_iff_prefix.mp h).isInfix
      · simp only [Option.isSome_none, Bool.false_eq_true, false_iff]
        intro hinf
        rw [List.infix_nil] at hinf
        subst hinf
        exact h (List.isPrefixOf_iff_prefix.mpr List.nil_prefix)
  | cons c rest ih =>
      intro i
      unfold firstIdxOfAux
      split_ifs with h
      · simp only [Option.isSome_some, true_iff]
        exact (List.isPrefixOf_iff_prefix.mp h).isInfix
      · rw [ih (i + 1)]
        constructor
        · exact fun hr => hr.trans (List.suffix_cons c rest).isInfix
        · intro hin
          rcases List.infix_cons_iff.mp hin with hp | hi
          · exact absurd (List.isPrefixOf_iff_prefix.mpr hp) h
          · exact hi

theorem firstIdxOf_eq_none (pat l : List Char) :
    firstIdxOf pat l = none ↔ ¬ pat <:+: l := by
  rw [← Option.not_isSome_iff_eq_none]
  exact not_congr (firstIdxOfAux_isSome pat l 0)

theorem includes_iff_occurs (l pat : List Char) : includesL l pat = true ↔ pat <:+: l :=
  firstIdxOfAux_isSome pat l 0

theorem lastIdxOfAux_eq_none (pat : List Char) :
    ∀ (l : List Char) (i : Nat) (best : Option Nat),
      lastIdxOfAux pat l i best = none ↔ best = none ∧ ¬ pat <:+: l := by
  intro l
  induction l with
  | nil =>
      intro i best
      unfold lastIdxOfAux
      dsimp only
      split_ifs with h
      · constructor
        · intro hc; cases hc
        · rintro ⟨_, hno⟩
          exact absurd (List.isPrefixOf_iff_prefix.mp h).isInfix hno
      · constructor
        · intro hb
          refine ⟨hb, ?_⟩
          rw [List.infix_nil]
          intro he
          subst he
          exact h (List.isPrefixOf_iff_prefix.mpr List.nil_prefix)
        · exact fun hx => hx.1
  | cons c rest ih =>
      intro i best
      unfold lastIdxOfAux
      dsimp only
      rw [ih (i + 1)]
      split_ifs with h
      · constructor
        · rintro ⟨hc, _⟩; cases hc
        · rintro ⟨_, hno⟩
          exact absurd (List.isPrefixOf_iff_prefix.mp h).isInfix hno
      · rw [List.infix_cons_iff]
        constructor
        · rintro ⟨hb, hnr⟩
          exact ⟨hb, fun hor =>
            hor.elim (fun hp => h (List.isPrefixOf_iff_prefix.mpr hp)) hnr⟩
        · rintro ⟨hb, hno⟩
          exact ⟨hb, fun hr => hno (Or.inr hr)⟩

theorem lastIdxOf_eq_none (pat l : List Char) :
    lastIdxOf pat l = none ↔ ¬ pat <:+: l := by
  unfold lastIdxOf
  rw [lastIdxOfAux_eq_none]
  simp

theorem hasXaiMarker_mono (a b : List Char) (hin : a <:+: b)
    (h : hasXaiMarker b = false) : hasXaiMarker a = false := by
  unfold hasXaiMarker at h ⊢
  rw [Bool.eq_false_iff] at h ⊢
  intro ht
  exact h ((includes_iff_occurs _ _).mpr
    (((includes_iff_occurs _ _).mp ht).trans (hin.map Char.toLower)))

theorem consumeLoop_markerFree (emitLines : Bool) (fallback : List Char) (fuel : Nat)
    (buffer accText : List Char) (accLines : List (List Char))
    (h : hasXaiMarker buffer = false) :
    consumeLoop emitLines fallback (fuel + 1) buffer accText accLines =
      (accText ++ buffer, accLines, []) := by
  have hfree : ¬ PARTIAL_MARKER <:+: toLowerL buffer := by
    unfold hasXaiMarker at h
    intro hocc
    rw [(includes_iff_occurs _ _).mpr hocc] at h
    cases h
  have husage : firstIdxOf TOOL_USAGE_OPEN (toLowerL buffer) = none :=
    (firstIdxOf_eq_none _ _).mpr
      (fun hocc => hfree ((by decide : PARTIAL_MARKER <+: TOOL_USAGE_OPEN).isInfix.trans hocc))
  have hname : firstIdxOf TOOL_NAME_OPEN (toLowerL buffer) = none :=
    (firstIdxOf_eq_none _ _).mpr
      (fun hocc => hfree ((by decide : PARTIAL_MARKER <+: TOOL_NAME_OPEN).isInfix.trans hocc))
  have hlast : lastIdxOf PARTIAL_MARKER (toLowerL buffer) = none :=
    (lastIdxOf_eq_none _ _).mpr hfree
  have hstart : findCardStart buffer = none := by
    unfold findCardStart
    dsimp only
    rw [husage, hname]
  have hpart : findPartialStart buffer = none := by
    unfold findPartialStart
    dsimp only
    rw [hlast]
  simp only [consumeLoop, hstart, hpart]
  split_ifs with hb
  · subst hb
    rw [List.append_nil]
  · rfl

theorem consume_markerFree (buffer input : List Char) (opts : ConsumeOptions)
    (h : hasXaiMarker (buffer ++ input) = false) :
    consume buffer input opts = ({ text := buffer ++ input, lines := [] }, []) := by
  unfold consume
  dsimp only
  split_ifs with hi
  · rw [consumeLoop_markerFree _ _ _ _ _ _ h]
    simp
  · have hnil : input = [] := by simpa using hi
    subst hnil
    rw [consumeLoop_markerFree _ _ _ _ _ _ (by simpa using h)]
    simp

theorem consumeChunks_markerFree (opts : ConsumeOptions) :
    ∀ (chunks : List (List Char)), hasXaiMarker chunks.flatten = false →
      consumeChunks opts chunks [] = ({ text := chunks.flatten, lines := [] }, []) := by
  intro chunks
  induction chunks with
  | nil => intro _; rfl
  | cons c rest ih =>
      intro h
      rw [List.flatten_cons] at h
      have hc : hasXaiMarker c = false :=
        hasXaiMarker_mono _ _ (List.prefix_append c rest.flatten).isInfix h
      have hr : hasXaiMarker rest.flatten = false :=
        hasXaiMarker_mono _ _ (List.suffix_append c rest.flatten).isInfix h
      simp only [consumeChunks]
      rw [consume_markerFree [] c opts (by simpa using hc)]
      dsimp only
      rw [ih hr]
      simp [List.flatten_cons]

theorem runChunked_markerFree (opts : ConsumeOptions) (chunks : List (List Char))
    (h : hasXaiMarker chunks.flatten = false) :
    runChunked opts chunks = { text := chunks.flatten, lines := [] } := by
  unfold runChunked
  rw [consumeChunks_markerFree opts chunks h]
  dsimp only
  rw [show flush [] opts true = ({ text := [], lines := [] }, []) from rfl]
  simp

/-- C2 (amended): for every input and every partition of it into consecutive
chunks, feeding the chunks in order to `ToolUsageCardStreamParser.consume`
and then `flush(emitIncompleteAsText := true)` produces the same text and
card lines as the unsplit input, PROVIDED the input has no case-insensitive
occurrence of the `<xai:` marker; the output is then the input itself with
no card lines.  (The unrestricted claim is false: see the counterexample,
where a chunk boundary after `</xai:tool_args>` detaches the optional
trailing `</xai:tool_usage_card>` closer from its card.) -/
theorem C2_chunking_invariance (opts : ConsumeOptions) (input : List Char)
    (chunks : List (List Char)) (hsplit : chunks.flatten = input)
    (hfree : hasXaiMarker input = false) :
    runChunked opts chunks = runChunked opts [input] ∧
    runChunked opts chunks = { text := input, lines := [] } := by
  subst hsplit
  have h1 := runChunked_markerFree opts chunks hfree
  have h2 := runChunked_markerFree opts [chunks.flatten] (by simpa using hfree)
  constructor
  · rw [h1, h2]
    simp
  · exact h1

/-- C2 witness: a concrete marker-free instance of the chunking-invariance
theorem. -/
theorem C2_witness :
    (["ab".toList, "cd".toList] : List (List Char)).flatten = "abcd".toList ∧
    hasXaiMarker "abcd".toList = false ∧
    runChunked { emitLines := true } ["ab".toList, "cd".toList] =
      runChunked { emitLines := true } ["abcd".toList] :=
  ⟨by decide, by decide,
    (C2_chunking_invariance { emitLines := true } "abcd".toList
      ["ab".toList, "cd".toList] (by decide) (by decide)).1⟩

/-- C2 counterexample: splitting the input right after `</xai:tool_args>`
leaves the optional trailing `</xai:tool_usage_card>` in the next chunk;
the parser then consumes the card without it and emits the orphaned closer
as literal text, so the chunked output differs from the unsplit output. -/
theorem C2_counterexample :
    runChunked { emitLines := false }
        ["<xai:tool_name>x</xai:tool_name><xai:tool_args><![CDATA[\x7b\x7d]]></xai:tool_args>".toList,
         "</xai:tool_usage_card>".toList] ≠
      runChunked { emitLines := false }
        ["<xai:tool_name>x</xai:tool_name><xai:tool_args><![CDATA[\x7b\x7d]]></xai:tool_args></xai:tool_usage_card>".toList] := by
  decide

end G2A
